import Mathlib

/-!
Shallow embedding of the insider-trading scoring and backtesting core of the
repository: `src/insider_trading_detector.py` (namespace
`PolymarketInsiderDetector`), `src/backtest_analyzer.py` (namespace
`PolymarketBacktester`) and `src/kalshi_insider_scan.py` (namespace
`KalshiInsiderDetector`).

Modelling conventions, used uniformly below:

* Python floats are modelled as rationals (`ℚ`); `statistics.stdev` needs a
  real square root, so the price-movement indicator alone is valued in `ℝ`.
* A trade is a dict with optional fields; `t.get(k, d)` becomes
  `Option.getD`.  The `size` field may additionally hold a non-numeric
  string: `float(...)` then raises `ValueError`, which the per-trade
  `try/except` of the grouping loops turns into `continue` and the whole-body
  `try/except` of the velocity/movement indicators turns into `(0, {})`.
  Timestamps and prices are modelled as numeric-or-absent, which makes the
  remaining exception paths unreachable.
* Python's `sorted` is stable; `pySorted` below is a stable insertion sort by
  a rational key and `pySortedDesc` models `sorted(..., reverse=True)`.
* `q / 0 = 0` in Lean, while Python raises `ZeroDivisionError`.  No theorem
  below depends on a division by zero: positivity hypotheses rule those
  inputs out wherever the source can actually divide by zero.
* Empty Python dicts `{}` returned as analysis details are modelled as
  `none`; populated detail dicts as `some` of a structure carrying the
  computed fields.  Purely reportorial sub-lists (`top_addresses`,
  `top_whales`) are omitted from the detail structures; every numeric field
  a theorem could inspect is kept.
* `round(x, n)` is modelled as decimal round-half-to-even (`pyRound`).
-/

/-- Integer rounding half-to-even, as Python's `round` does on ties. -/
def pyRoundInt (q : ℚ) : ℤ :=
  let f := q.floor
  let r := q - (f : ℚ)
  if r < 1/2 then f
  else if 1/2 < r then f + 1
  else if f % 2 = 0 then f else f + 1

/-- Python's `round(q, n)`: round to `n` decimal places, ties to even. -/
def pyRound (q : ℚ) (n : ℕ) : ℚ := (pyRoundInt (q * 10 ^ n) : ℚ) / 10 ^ n

/-- Insert `x` into a list already sorted (ascending) by `key`, before the
first element with a key `≥ key x`; this is the stable position. -/
def insertAsc {α : Type} (key : α → ℚ) (x : α) : List α → List α
  | [] => [x]
  | y :: ys => if key x ≤ key y then x :: y :: ys else y :: insertAsc key x ys

/-- Python's stable `sorted(l, key=key)` (ascending), as insertion sort. -/
def pySorted {α : Type} (key : α → ℚ) : List α → List α
  | [] => []
  | x :: xs => insertAsc key x (pySorted key xs)

/-- Python's stable `sorted(l, key=key, reverse=True)`: equal-key elements
keep their original order, so it coincides with a stable ascending sort by
the negated key. -/
def pySortedDesc {α : Type} (key : α → ℚ) (l : List α) : List α :=
  pySorted (fun a => -(key a)) l

/-- `defaultdict(float)` accumulation `d[k] += v`, keeping insertion order. -/
def addToAssoc (l : List (String × ℚ)) (k : String) (v : ℚ) :
    List (String × ℚ) :=
  match l with
  | [] => [(k, v)]
  | (k', v') :: rest =>
      if k' = k then (k', v' + v) :: rest else (k', v') :: addToAssoc rest k v

/-- `defaultdict(list)` accumulation `d[k].append(x)`, keeping insertion
order. -/
def appendToAssoc {α : Type} (l : List (String × List α)) (k : String)
    (x : α) : List (String × List α) :=
  match l with
  | [] => [(k, [x])]
  | (k', xs) :: rest =>
      if k' = k then (k', xs ++ [x]) :: rest
      else (k', xs) :: appendToAssoc rest k x

/-- Python's `max(l)` on a list of numbers (callers guard against `[]`,
where Python would raise `ValueError`; `0` here is arbitrary). -/
def pyMaxQ : List ℚ → ℚ
  | [] => 0
  | x :: xs => xs.foldl max x

/-- Python's `max(items, key=value)` over `(label, value)` pairs: the first
pair attaining the maximal value wins, since the scan replaces the running
best only on a strictly greater value. -/
def pyMaxByVal : List (String × ℚ) → Option (String × ℚ)
  | [] => none
  | x :: xs => some (xs.foldl (fun best y => if best.2 < y.2 then y else best) x)

/-- A numeric dict field that may be absent, present but unparseable by
`float` (a `ValueError` on access), or a number. -/
inductive RawNum where
  | missing
  | bad
  | num (q : ℚ)
deriving DecidableEq, Repr, Inhabited

/-- One trade record, with the optional fields the source reads. -/
structure Trade where
  timestamp : Option ℚ := none
  createdAt : Option ℚ := none
  maker : Option String := none
  taker : Option String := none
  outcome : Option String := none
  size : RawNum := .missing
  price : Option ℚ := none
  executionPrice : Option ℚ := none
deriving DecidableEq, Repr, Inhabited

/-- `t.get('timestamp', t.get('createdAt', 0))`. -/
def tsRaw (t : Trade) : ℚ := t.timestamp.getD (t.createdAt.getD 0)

/-- `t.get('maker', t.get('taker', 'unknown'))`. -/
def addrOf (t : Trade) : String := t.maker.getD (t.taker.getD "unknown")

/-- `float(t.get('size', 0))` where it succeeds (absent size reads as 0). -/
def sizeVal (t : Trade) : ℚ :=
  match t.size with
  | .num q => q
  | _ => 0

/-- Does `float(t.get('size', 0))` raise `ValueError`? -/
def sizeBad (t : Trade) : Bool :=
  match t.size with
  | .bad => true
  | _ => false

/-- `float(t.get('price', t.get('executionPrice', 0)))`. -/
def priceRaw (t : Trade) : ℚ := t.price.getD (t.executionPrice.getD 0)

/-- The `scores` dict handed to `calculate_insider_probability`; a `none`
field is an absent key. -/
structure Scores where
  concentration : Option ℚ := none
  velocity : Option ℚ := none
  skew : Option ℚ := none
  movement : Option ℚ := none
  whale : Option ℚ := none
deriving DecidableEq, Repr

/-- `address_volumes`: group trade sizes by address.  The same loop appears
in `analyze_position_concentration` of both source files; a trade whose size
does not parse is skipped by the `except (KeyError, ValueError): continue`. -/
def addressVolumes (trades : List Trade) : List (String × ℚ) :=
  trades.foldl
    (fun acc t => if sizeBad t then acc else addToAssoc acc (addrOf t) (sizeVal t)) []

/-- `outcome_volumes`: group trade sizes by outcome label, as in
`analyze_outcome_skew` of both source files. -/
def outcomeVolumes (trades : List Trade) : List (String × ℚ) :=
  trades.foldl
    (fun acc t =>
      if sizeBad t then acc
      else addToAssoc acc (t.outcome.getD "unknown") (sizeVal t)) []

namespace PolymarketInsiderDetector

/-- Detail dict of `analyze_position_concentration` (the reportorial
`top_addresses` list is omitted). -/
structure ConcentrationDetails where
  herfindahl_index : ℚ
  num_unique_addresses : ℕ
  concentration_ratio_top3 : ℚ
  total_volume : ℚ
deriving DecidableEq, Repr

/-- `PolymarketInsiderDetector.analyze_position_concentration`.  Note the
returned score is `herfindahl * 10` with no clamp in this file. -/
def analyze_position_concentration (trades : List Trade) :
    ℚ × Option ConcentrationDetails :=
  if trades = [] then (0, none) else
  let av := addressVolumes trades
  if av = [] then (0, none) else
  let total_volume := (av.map (fun p => p.2)).sum
  let market_shares := av.map (fun p => p.2 / total_volume)
  let herfindahl := (market_shares.map (fun s => s ^ 2)).sum
  let top_addresses := (pySortedDesc (fun p => p.2) av).take 5
  let concentration_score := herfindahl * 10
  (concentration_score,
   some { herfindahl_index := pyRound herfindahl 3,
          num_unique_addresses := av.length,
          concentration_ratio_top3 :=
            pyRound (((top_addresses.take 3).map (fun p => p.2)).sum / total_volume) 3,
          total_volume := pyRound total_volume 2 })

/-- Detail dict of `analyze_volume_velocity`. -/
structure VelocityDetails where
  trades_per_hour : ℚ
  recent_24h_trades : ℕ
  recent_24h_volume : ℚ
  velocity_score : ℚ
deriving DecidableEq, Repr

/-- `PolymarketInsiderDetector.analyze_volume_velocity`.  The whole body sits
in a `try/except` returning `(0, {})`; with numeric timestamps the only
reachable exception is the `ValueError` from `float(t.get('size', 0))` while
summing `recent_volume`. -/
def analyze_volume_velocity (trades : List Trade) : ℚ × Option VelocityDetails :=
  if trades = [] then (0, none) else
  let trades_sorted := pySorted tsRaw trades
  if trades_sorted.length < 2 then (0, none) else
  let first_time := tsRaw (trades_sorted.headD default)
  let last_time := tsRaw (trades_sorted.getLastD default)
  let time_diff_hours := if last_time ≠ first_time then (last_time - first_time) / 3600 else 1
  let trades_per_hour := (trades_sorted.length : ℚ) / max time_diff_hours (1/10)
  let recent_trades := trades_sorted.filter (fun t => last_time - tsRaw t < 86400)
  if recent_trades.any sizeBad then (0, none) else
  let recent_volume := (recent_trades.map sizeVal).sum
  let velocity_score := min (trades_per_hour / 10) 10
  (velocity_score,
   some { trades_per_hour := pyRound trades_per_hour 2,
          recent_24h_trades := recent_trades.length,
          recent_24h_volume := pyRound recent_volume 2,
          velocity_score := pyRound velocity_score 2 })

/-- Detail dict of `analyze_outcome_skew`; `outcome_distribution` keeps the
volume-descending order the source builds it in. -/
structure SkewDetails where
  outcome_distribution : List (String × ℚ)
  largest_outcome_share : ℚ
  skew_score : ℚ
deriving DecidableEq, Repr

/-- `PolymarketInsiderDetector.analyze_outcome_skew`. -/
def analyze_outcome_skew (trades : List Trade) : ℚ × Option SkewDetails :=
  if trades = [] then (0, none) else
  let ov := outcomeVolumes trades
  if ov = [] then (0, none) else
  let total := (ov.map (fun p => p.2)).sum
  if total = 0 then (0, none) else
  let sorted_outcomes := pySortedDesc (fun p => p.2) ov
  let largest_share := (sorted_outcomes.headD default).2 / total
  let skew_score := min (|largest_share - 1/2| * 20) 10
  (skew_score,
   some { outcome_distribution :=
            sorted_outcomes.map (fun p => (p.1, pyRound (p.2 / total) 3)),
          largest_outcome_share := pyRound largest_share 3,
          skew_score := pyRound skew_score 2 })

/-- Successive relative price changes
`[abs(p[i] - p[i-1]) / p[i-1] for i in range(1, len(p)) if p[i-1] != 0]`. -/
def relChanges : List ℚ → List ℚ
  | p1 :: p2 :: rest =>
      (if p1 ≠ 0 then [|p2 - p1| / p1] else []) ++ relChanges (p2 :: rest)
  | _ => []

/-- `PolymarketInsiderDetector.analyze_price_movement`.  `statistics.stdev`
is the sample standard deviation, an exact real square root here, so this
indicator is real-valued; the detail dict is not inspected by any theorem
and is modelled only as empty (`none`) versus populated (`some ()`).
The loop collecting prices also evaluates `float(trade.get('size', 0))`, so
one unparseable size makes the surrounding `try/except` return `(0, {})`. -/
noncomputable def analyze_price_movement (trades : List Trade) : ℝ × Option Unit :=
  if trades = [] then (0, none) else
  let trades_sorted := pySorted tsRaw trades
  if trades_sorted.length < 3 then (0, none) else
  if trades_sorted.any sizeBad then (0, none) else
  let prices := (trades_sorted.map priceRaw).filter (fun p => 0 < p)
  if prices.length < 2 then (0, none) else
  let price_changes := relChanges prices
  if price_changes = [] then (0, none) else
  let avg_change : ℚ := price_changes.sum / price_changes.length
  let volatility : ℝ :=
    if 1 < price_changes.length then
      Real.sqrt (((price_changes.map (fun x => ((x : ℝ) - (avg_change : ℝ)) ^ 2)).sum) /
        ((price_changes.length : ℝ) - 1))
    else 0
  (min (((avg_change : ℝ) + volatility) * 50) 10, some ())

/-- One entry of the `whale_data` list built by `analyze_whale_accumulation`. -/
structure WhaleEntry where
  address : String
  total_position : ℚ
  num_trades : ℕ
  avg_trade_size : ℚ
  accumulation_time_hours : ℚ
  accumulation_speed : ℚ
deriving DecidableEq, Repr, Inhabited

/-- Detail dict of `analyze_whale_accumulation` (the reportorial `top_whales`
list is omitted). -/
structure WhaleDetails where
  num_whale_addresses : ℕ
deriving DecidableEq, Repr

/-- `address_trades`: group `(size, timestamp, price)` per address, skipping
trades whose size does not parse. -/
def addressTradeGroups (trades : List Trade) :
    List (String × List (ℚ × ℚ × ℚ)) :=
  trades.foldl
    (fun acc t =>
      if sizeBad t then acc
      else appendToAssoc acc (addrOf t) (sizeVal t, tsRaw t, priceRaw t)) []

/-- The `whale_data` list: one entry per address with at least two parsed
trades. -/
def whale_data (trades : List Trade) : List WhaleEntry :=
  (addressTradeGroups trades).filterMap
    (fun p =>
      if 2 ≤ p.2.length then
        let total_size := (p.2.map (fun e => e.1)).sum
        let sorted := pySorted (fun e => e.2.1) p.2
        let time_span := (sorted.getLastD default).2.1 - (sorted.headD default).2.1
        some { address := p.1.take 10 ++ "...",
               total_position := total_size,
               num_trades := p.2.length,
               avg_trade_size := total_size / (p.2.length : ℚ),
               accumulation_time_hours := if 0 < time_span then time_span / 3600 else 0,
               accumulation_speed := total_size / max (time_span / 3600) 1 }
      else none)

/-- `PolymarketInsiderDetector.analyze_whale_accumulation`: score from the
accumulation speed of the largest-position whale. -/
def analyze_whale_accumulation (trades : List Trade) : ℚ × Option WhaleDetails :=
  if trades = [] then (0, none) else
  let wd := whale_data trades
  if wd = [] then (0, none) else
  let sorted := pySortedDesc (fun w => w.total_position) wd
  let top_whale := sorted.headD default
  (min (top_whale.accumulation_speed / 100) 10,
   some { num_whale_addresses := wd.length })

/-- `PolymarketInsiderDetector.calculate_insider_probability`: direct dict
indexing, so a missing key raises `KeyError` (modelled as `none`). -/
def calculate_insider_probability (scores : Scores) : Option ℚ :=
  match scores.concentration, scores.velocity, scores.skew,
        scores.movement, scores.whale with
  | some c, some v, some s, some m, some w =>
      some (min ((c * (25/100) + v * (15/100) + s * (20/100) +
                  m * (15/100) + w * (25/100)) / 10) 1)
  | _, _, _, _, _ => none

end PolymarketInsiderDetector

namespace PolymarketBacktester

/-- Detail dict of the backtester's `analyze_position_concentration`. -/
structure BConcentrationDetails where
  herfindahl_index : ℚ
  num_unique_addresses : ℕ
  concentration_ratio_top3 : ℚ
deriving DecidableEq, Repr

/-- `PolymarketBacktester.analyze_position_concentration`: same grouping and
Herfindahl computation as the detector's, but the returned score is clamped
by `min(concentration_score, 10)`. -/
def analyze_position_concentration (trades : List Trade) :
    ℚ × Option BConcentrationDetails :=
  if trades = [] then (0, none) else
  let av := addressVolumes trades
  if av = [] then (0, none) else
  let total_volume := (av.map (fun p => p.2)).sum
  let market_shares := av.map (fun p => p.2 / total_volume)
  let herfindahl := (market_shares.map (fun s => s ^ 2)).sum
  let concentration_score := herfindahl * 10
  (min concentration_score 10,
   some { herfindahl_index := pyRound herfindahl 3,
          num_unique_addresses := av.length,
          concentration_ratio_top3 :=
            pyRound ((((pySortedDesc (fun v => v) (av.map (fun p => p.2))).take 3).sum) / total_volume) 3 })

/-- Detail dict of the backtester's `analyze_volume_velocity`. -/
structure BVelocityDetails where
  trades_per_hour : ℚ
deriving DecidableEq, Repr

/-- `PolymarketBacktester.analyze_volume_velocity`.  Unlike the detector's
version there is no `recent_volume` sum, so with numeric timestamps the
surrounding `try/except` never fires. -/
def analyze_volume_velocity (trades : List Trade) : ℚ × Option BVelocityDetails :=
  if trades = [] then (0, none) else
  let trades_sorted := pySorted tsRaw trades
  if trades_sorted.length < 2 then (0, none) else
  let first_time := tsRaw (trades_sorted.headD default)
  let last_time := tsRaw (trades_sorted.getLastD default)
  let time_diff_hours := if last_time ≠ first_time then (last_time - first_time) / 3600 else 1
  let trades_per_hour := (trades_sorted.length : ℚ) / max time_diff_hours (1/10)
  let velocity_score := min (trades_per_hour / 10) 10
  (velocity_score, some { trades_per_hour := pyRound trades_per_hour 2 })

/-- Detail dict of the backtester's `analyze_outcome_skew`. -/
structure BSkewDetails where
  outcome_distribution : List (String × ℚ)
  largest_outcome_share : ℚ
deriving DecidableEq, Repr

/-- `PolymarketBacktester.analyze_outcome_skew`: `largest_share` is guarded
by `if total > 0 else 0`; the detail distribution divides by `total`
unguarded (a `ZeroDivisionError` in Python when `total == 0`, never relied
on below). -/
def analyze_outcome_skew (trades : List Trade) : ℚ × Option BSkewDetails :=
  if trades = [] then (0, none) else
  let ov := outcomeVolumes trades
  if ov = [] then (0, none) else
  let total := (ov.map (fun p => p.2)).sum
  let largest_share := if 0 < total then pyMaxQ (ov.map (fun p => p.2 / total)) else 0
  let skew_score := min (|largest_share - 1/2| * 20) 10
  let sorted_outcomes := pySortedDesc (fun p => p.2) ov
  (skew_score,
   some { outcome_distribution :=
            sorted_outcomes.map (fun p => (p.1, pyRound (p.2 / total) 3)),
          largest_outcome_share := pyRound largest_share 3 })

/-- Detail dict of the backtester's `analyze_whale_accumulation`. -/
structure BWhaleDetails where
  top_whale_position : ℚ
deriving DecidableEq, Repr

/-- Per-address size lists, as built by the backtester's whale loop (only
`{'size': size}` is stored per trade). -/
def addressSizeGroups (trades : List Trade) : List (String × List ℚ) :=
  trades.foldl
    (fun acc t =>
      if sizeBad t then acc else appendToAssoc acc (addrOf t) (sizeVal t)) []

/-- `PolymarketBacktester.analyze_whale_accumulation`: normalizes the top
whale's total position by `1000` (the detector normalizes accumulation speed
by `100` instead). -/
def analyze_whale_accumulation (trades : List Trade) : ℚ × Option BWhaleDetails :=
  if trades = [] then (0, none) else
  let wd := (addressSizeGroups trades).filterMap
    (fun p => if 2 ≤ p.2.length then some (p.2.sum, p.2.length) else none)
  if wd = [] then (0, none) else
  let top_position := pyMaxQ (wd.map (fun w => w.1))
  (min (top_position / 1000) 10, some { top_whale_position := top_position })

/-- `PolymarketBacktester.calculate_insider_probability`: reads four scores
with `.get(key, 0)` and never applies the `movement` weight. -/
def calculate_insider_probability (scores : Scores) : ℚ :=
  min ((scores.concentration.getD 0 * (25/100) + scores.velocity.getD 0 * (15/100) +
        scores.skew.getD 0 * (20/100) + scores.whale.getD 0 * (25/100)) / 10) 1

/-- `get_trades_before_timestamp`: strict `< timestamp` filter. -/
def get_trades_before_timestamp (trades : List Trade) (timestamp : ℚ) :
    List Trade :=
  trades.filter (fun t => tsRaw t < timestamp)

/-- `get_market_price_at_timestamp`: nearest trade within 300 seconds, else
`None`. -/
def get_market_price_at_timestamp (trades : List Trade) (timestamp : ℚ) :
    Option ℚ :=
  let nearby_trades :=
    pySorted (fun t => |tsRaw t - timestamp|)
      (trades.filter (fun t => |tsRaw t - timestamp| < 300))
  match nearby_trades with
  | [] => none
  | t :: _ => some (priceRaw t)

/-- The `scores` dict built per window inside `find_signal_point`
(`'movement': 0` is set explicitly). -/
def window_scores (window_trades : List Trade) : Scores :=
  { concentration := some (analyze_position_concentration window_trades).1,
    velocity := some (analyze_volume_velocity window_trades).1,
    skew := some (analyze_outcome_skew window_trades).1,
    whale := some (analyze_whale_accumulation window_trades).1,
    movement := some 0 }

/-- The aggregated signal over the window `trades_sorted[:i]`. -/
def signal_value (trades_sorted : List Trade) (i : ℕ) : ℚ :=
  calculate_insider_probability (window_scores (trades_sorted.take i))

/-- The scan loop of `find_signal_point`: fold over the index list
`range(10, len(trades_sorted))`, updating only on a strictly larger signal
and recording `trades_sorted[i]`'s timestamp (the first trade after the
window). -/
def fsp_loop (trades_sorted : List Trade) :
    List ℕ → ℚ → Option ℚ → ℚ × Option ℚ
  | [], max_signal, signal_timestamp => (max_signal, signal_timestamp)
  | i :: rest, max_signal, signal_timestamp =>
      let s := signal_value trades_sorted i
      if max_signal < s then
        fsp_loop trades_sorted rest s (some (tsRaw (trades_sorted.getD i default)))
      else
        fsp_loop trades_sorted rest max_signal signal_timestamp

/-- `PolymarketBacktester.find_signal_point`: `(None, None)` on fewer than 10
trades, else the scan result `(signal_timestamp, max_signal)`. -/
def find_signal_point (trades : List Trade) : Option ℚ × Option ℚ :=
  if trades.length < 10 then (none, none) else
  let trades_sorted := pySorted tsRaw trades
  let r := fsp_loop trades_sorted (List.range' 10 (trades_sorted.length - 10)) 0 none
  (r.2, some r.1)

/-- The market dict fields `backtest_market` reads. -/
structure Market where
  id : Option String := none
  title : Option String := none
  question : Option String := none
deriving DecidableEq, Repr

/-- The market-history dict fields `backtest_market` reads (the result of
`fetch_market_history`, passed in as a parameter here). -/
structure MarketHistory where
  resolutionSource : Option String := none
  resolvedBy : Option String := none
  resolvedTime : Option ℚ := none
deriving DecidableEq, Repr

/-- The `indicator_scores` dict stored on a `BacktestResult` (keys
`Concentration`, `Velocity`, `Skew`, `Whale`). -/
structure IndicatorScores where
  concentration : ℚ
  velocity : ℚ
  skew : ℚ
  whale : ℚ
deriving DecidableEq, Repr

/-- The `BacktestResult` dataclass. -/
structure BacktestResult where
  market_id : String
  market_title : String
  signal_timestamp : ℚ
  analysis_timestamp : ℚ
  insider_probability : ℚ
  indicator_scores : IndicatorScores
  pre_signal_price : ℚ
  post_signal_price : ℚ
  price_movement : ℚ
  price_movement_pct : ℚ
  predicted_correctly : Bool
  outcome_prediction : String
  actual_outcome : Option String
  market_resolved : Bool
  time_to_resolution_hours : Option ℚ
  trades_analyzed : ℕ
deriving DecidableEq, Repr

/-- `PolymarketBacktester.backtest_market`.  The two network fetches are
passed in as parameters (`all_trades` for `fetch_historical_trades`,
`market_history` for `fetch_market_history`) and `datetime.now().timestamp()`
as `now`.  The `trades_after_signal` the source computes is never used and is
not modelled.  `if not all_trades or len(all_trades) < 5` collapses to the
length test. -/
def backtest_market (market : Market) (all_trades : List Trade)
    (market_history : MarketHistory) (now : ℚ) : Option BacktestResult :=
  let market_id := market.id.getD ""
  let market_title := market.title.getD (market.question.getD "")
  if market_id = "" then none else
  if all_trades.length < 5 then none else
  match find_signal_point all_trades with
  | (none, _) => none
  | (some signal_timestamp, insider_prob) =>
    let trades_at_signal := get_trades_before_timestamp all_trades signal_timestamp
    let concentration_score := (analyze_position_concentration trades_at_signal).1
    let velocity_score := (analyze_volume_velocity trades_at_signal).1
    let skew_score := (analyze_outcome_skew trades_at_signal).1
    let whale_score := (analyze_whale_accumulation trades_at_signal).1
    let indicator_scores : IndicatorScores :=
      { concentration := pyRound concentration_score 2,
        velocity := pyRound velocity_score 2,
        skew := pyRound skew_score 2,
        whale := pyRound whale_score 2 }
    match get_market_price_at_timestamp trades_at_signal signal_timestamp,
          get_market_price_at_timestamp all_trades (signal_timestamp + 3600) with
    | some pre_signal_price, some post_signal_price =>
      let price_movement := post_signal_price - pre_signal_price
      let price_movement_pct :=
        if 0 < pre_signal_price then price_movement / pre_signal_price * 100 else 0
      let outcome_skew_data := (analyze_outcome_skew trades_at_signal).2
      let outcome_prediction :=
        match outcome_skew_data with
        | some d =>
            match pyMaxByVal d.outcome_distribution with
            | some p => p.1
            | none => "unknown"
        | none => "unknown"
      let market_resolved := market_history.resolutionSource.isSome
      let actual_outcome := market_history.resolvedBy
      let resolved_truthy : Bool :=
        market_resolved && (match actual_outcome with
                            | some s => s ≠ ""
                            | none => false)
      some { market_id := market_id,
             market_title := market_title,
             signal_timestamp := signal_timestamp,
             analysis_timestamp := now,
             insider_probability := insider_prob.getD 0,
             indicator_scores := indicator_scores,
             pre_signal_price := pyRound pre_signal_price 4,
             post_signal_price := pyRound post_signal_price 4,
             price_movement := pyRound price_movement 4,
             price_movement_pct := pyRound price_movement_pct 2,
             predicted_correctly :=
               if resolved_truthy then
                 decide (outcome_prediction = actual_outcome.getD "")
               else false,
             outcome_prediction := outcome_prediction,
             actual_outcome := actual_outcome,
             market_resolved := market_resolved,
             time_to_resolution_hours :=
               if resolved_truthy then
                 some ((market_history.resolvedTime.getD (signal_timestamp + 86400) -
                        signal_timestamp) / 3600)
               else none,
             trades_analyzed := trades_at_signal.length }
    | _, _ => none

end PolymarketBacktester

namespace KalshiInsiderDetector

/-- The Kalshi market dict fields `analyze_market` reads; the
`yes_price`/`yesPrice`, `no_price`/`noPrice` and `volume`/`volume_24h`
fallback chains are collapsed into one optional field each. -/
structure KalshiMarket where
  id : Option String := none
  title : Option String := none
  subtitle : Option String := none
  yes_price : Option ℚ := none
  no_price : Option ℚ := none
  volume : Option ℚ := none
  closed : Bool := false
deriving DecidableEq, Repr

/-- The `KalshiAnalysis` dataclass. -/
structure KalshiAnalysis where
  market_id : String
  title : String
  yes_price : ℚ
  no_price : ℚ
  skew : ℚ
  suspicious_score : ℚ
  status : String
  volume : ℚ
  closed : Bool
deriving DecidableEq, Repr

/-- `KalshiInsiderDetector.calculate_skew`: normalize the two prices and
take twice the distance of the yes-probability from 1/2. -/
def calculate_skew (yes_price no_price : ℚ) : ℚ :=
  let total := yes_price + no_price
  if total = 0 then 0 else
  let yes_prob := yes_price / total
  |yes_prob - 1/2| * 2

/-- `KalshiInsiderDetector.analyze_market`.  The surrounding
`try/except` is unreachable with the numeric field model, so the result is
always produced. -/
def analyze_market (market : KalshiMarket) : KalshiAnalysis :=
  let market_id := market.id.getD ""
  let title := market.title.getD (market.subtitle.getD "Unknown")
  let yes_price := market.yes_price.getD (1/2)
  let no_price := market.no_price.getD (1/2)
  let skew := calculate_skew yes_price no_price
  let total := if 0 < yes_price + no_price then yes_price + no_price else 1
  let yes_prob := yes_price / total * 100
  let no_prob := no_price / total * 100
  let suspicious_score := skew * 10
  { market_id := market_id,
    title := title,
    yes_price := yes_prob,
    no_price := no_prob,
    skew := skew,
    suspicious_score := suspicious_score,
    status := if market.closed then "🔴 CLOSED" else "🟢 OPEN",
    volume := market.volume.getD 0,
    closed := market.closed }

end KalshiInsiderDetector

/-- A fully-populated sample trade, for the concrete inputs below. -/
def sampleTrade (ts : ℚ) (mk : String) (sz : ℚ) (oc : String) (pr : ℚ) : Trade :=
  { timestamp := some ts, maker := some mk, size := .num sz,
    outcome := some oc, price := some pr }

/-- Twelve trades: eleven spaced 100 s apart (distinct makers, equal sizes,
one outcome) plus one 3700 s after the eleventh, so that a backtest finds a
signal at timestamp 1000 and resolves both the pre- and post-signal price. -/
def exBacktestTrades : List Trade :=
  [sampleTrade 0 "w" 1 "Yes" (1/2), sampleTrade 100 "w" 1 "Yes" (1/2),
   sampleTrade 200 "w" 1 "Yes" (1/2), sampleTrade 300 "w" 1 "Yes" (1/2),
   sampleTrade 400 "w" 1 "Yes" (1/2), sampleTrade 500 "w" 1 "Yes" (1/2),
   sampleTrade 600 "w" 1 "Yes" (1/2), sampleTrade 700 "w" 1 "Yes" (1/2),
   sampleTrade 800 "w" 1 "Yes" (1/2), sampleTrade 900 "w" 1 "Yes" (1/2),
   sampleTrade 1000 "w" 1 "Yes" (1/2), sampleTrade 4700 "w" 1 "Yes" (1/2)]

/-- The market dict used with `exBacktestTrades`. -/
def exMarket : PolymarketBacktester.Market := { id := some "m1", title := some "T" }

/-- The `BacktestResult` that `backtest_market` produces on
`exBacktestTrades` with an unresolved market history. -/
def exBacktestResult : PolymarketBacktester.BacktestResult :=
  { market_id := "m1", market_title := "T", signal_timestamp := 1000,
    analysis_timestamp := 0, insider_probability := 2041/4000,
    indicator_scores := { concentration := 10, velocity := 4, skew := 10, whale := 1/100 },
    pre_signal_price := 1/2, post_signal_price := 1/2,
    price_movement := 0, price_movement_pct := 0,
    predicted_correctly := false, outcome_prediction := "Yes",
    actual_outcome := none, market_resolved := false,
    time_to_resolution_hours := none, trades_analyzed := 10 }

/-- Eleven trades spaced 400 s apart: a signal point exists (timestamp 4000)
but no pre-signal trade lies within 300 s of it. -/
def elevenSpaced : List Trade :=
  [sampleTrade 0 "v" 1 "Yes" (1/2), sampleTrade 400 "v" 1 "Yes" (1/2),
   sampleTrade 800 "v" 1 "Yes" (1/2), sampleTrade 1200 "v" 1 "Yes" (1/2),
   sampleTrade 1600 "v" 1 "Yes" (1/2), sampleTrade 2000 "v" 1 "Yes" (1/2),
   sampleTrade 2400 "v" 1 "Yes" (1/2), sampleTrade 2800 "v" 1 "Yes" (1/2),
   sampleTrade 3200 "v" 1 "Yes" (1/2), sampleTrade 3600 "v" 1 "Yes" (1/2),
   sampleTrade 4000 "v" 1 "Yes" (1/2)]

/-- Exactly ten trades, pairwise one hour apart. -/
def tenTrades : List Trade :=
  [sampleTrade 0 "u" 1 "Yes" (1/2), sampleTrade 3600 "u" 1 "Yes" (1/2),
   sampleTrade 7200 "u" 1 "Yes" (1/2), sampleTrade 10800 "u" 1 "Yes" (1/2),
   sampleTrade 14400 "u" 1 "Yes" (1/2), sampleTrade 18000 "u" 1 "Yes" (1/2),
   sampleTrade 21600 "u" 1 "Yes" (1/2), sampleTrade 25200 "u" 1 "Yes" (1/2),
   sampleTrade 28800 "u" 1 "Yes" (1/2), sampleTrade 32400 "u" 1 "Yes" (1/2)]

/-- Two trades whose sizes are 10 and -9: total volume 1 with shares 10 and
-9, so the detector's unclamped Herfindahl score is 1810. -/
def mixedSignTrades : List Trade :=
  [{ maker := some "a", size := .num 10 }, { maker := some "b", size := .num (-9) }]

/-- Two well-formed trades with nonnegative sizes and positive total. -/
def twoPlainTrades : List Trade :=
  [sampleTrade 0 "a" 1 "Yes" (1/2), sampleTrade 3600 "b" 2 "Yes" (1/2)]

/-- Two trades sharing one timestamp (the velocity special case). -/
def sameTimeTrades : List Trade :=
  [sampleTrade 0 "a" 1 "Yes" (1/2), sampleTrade 0 "b" 1 "Yes" (1/2)]

/-- Three outcomes with volume shares 1/2, 3/10 and 1/5. -/
def threeOutcomeTrades : List Trade :=
  [sampleTrade 0 "a" 5 "A" (1/2), sampleTrade 1 "b" 3 "B" (1/2),
   sampleTrade 2 "c" 2 "C" (1/2)]

/-- Two outcomes with equal volume (a 50/50 split). -/
def evenSplitTrades : List Trade :=
  [sampleTrade 0 "a" 1 "Y" (1/2), sampleTrade 1 "b" 1 "N" (1/2)]

/-- A trade with a size but neither maker nor taker. -/
def noAddressTrade : Trade := { size := .num 100 }

/-- One trade with an address next to `noAddressTrade`. -/
def withNoAddressTrades : List Trade :=
  [{ maker := some "a", size := .num 100 }, noAddressTrade]

/-- The single addressed trade alone. -/
def oneAddressTrade : List Trade := [{ maker := some "a", size := .num 100 }]

/-- A trade whose size does not parse as a number. -/
def badSizeTrade : Trade := { maker := some "z", size := .bad }

/-- `timeSpanHours` and the velocity score exactly as claim C5 words them
(the spec's formula, kept separate from the code's embedding so the two can
be compared): elapsed hours between the first and last sorted trade, with no
special case for a zero span. -/
def specVelocityScore (trades : List Trade) : ℚ :=
  let sorted := pySorted tsRaw trades
  let span := (tsRaw (sorted.getLastD default) - tsRaw (sorted.headD default)) / 3600
  min (((trades.length : ℚ) / max span (1/10)) / 10) 10

section SortLemmas

variable {α : Type} (key : α → ℚ)

theorem insertAsc_length (x : α) (l : List α) :
    (insertAsc key x l).length = l.length + 1 := by
  induction l with
  | nil => rfl
  | cons y ys ih =>
      by_cases h : key x ≤ key y <;> simp [insertAsc, h, ih]

theorem pySorted_length (l : List α) : (pySorted key l).length = l.length := by
  induction l with
  | nil => rfl
  | cons x xs ih => simp [pySorted, insertAsc_length, ih]

theorem mem_insertAsc (x a : α) (l : List α) :
    a ∈ insertAsc key x l ↔ a = x ∨ a ∈ l := by
  induction l with
  | nil => simp [insertAsc]
  | cons y ys ih =>
      by_cases h : key x ≤ key y
      · simp [insertAsc, h]
      · simp [insertAsc, h, ih]
        tauto

theorem mem_pySorted (a : α) (l : List α) : a ∈ pySorted key l ↔ a ∈ l := by
  induction l with
  | nil => simp [pySorted]
  | cons x xs ih => simp [pySorted, mem_insertAsc, ih]

theorem insertAsc_pairwise (x : α) (l : List α)
    (hl : l.Pairwise (fun a b => key a ≤ key b)) :
    (insertAsc key x l).Pairwise (fun a b => key a ≤ key b) := by
  induction l with
  | nil => simp [insertAsc]
  | cons y ys ih =>
      rcases List.pairwise_cons.mp hl with ⟨hy, hys⟩
      by_cases h : key x ≤ key y
      · rw [insertAsc, if_pos h]
        refine List.pairwise_cons.mpr ⟨?_, hl⟩
        intro b hb
        rcases List.mem_cons.mp hb with rfl | hb
        · exact h
        · exact le_trans h (hy b hb)
      · rw [insertAsc, if_neg h]
        refine List.pairwise_cons.mpr ⟨?_, ih hys⟩
        intro b hb
        rcases (mem_insertAsc key x b ys).mp hb with rfl | hb
        · exact le_of_lt (lt_of_not_le h)
        · exact hy b hb

theorem pySorted_pairwise (l : List α) :
    (pySorted key l).Pairwise (fun a b => key a ≤ key b) := by
  induction l with
  | nil => simp [pySorted]
  | cons x xs ih => exact insertAsc_pairwise key x _ ih

theorem headD_mem [Inhabited α] (l : List α) (h : l ≠ []) :
    l.headD default ∈ l := by
  cases l with
  | nil => exact absurd rfl h
  | cons x xs => simp

theorem getLastD_mem' (l : List α) (d : α) (h : l ≠ []) :
    l.getLastD d ∈ l := by
  induction l generalizing d with
  | nil => exact absurd rfl h
  | cons x xs ih =>
      cases xs with
      | nil => simp
      | cons y ys =>
          rw [List.getLastD_cons]
          exact List.mem_cons_of_mem x (ih x (by simp))

theorem getLastD_mem [Inhabited α] (l : List α) (h : l ≠ []) :
    l.getLastD default ∈ l := getLastD_mem' l default h

theorem pairwise_headD_le [Inhabited α] (l : List α)
    (hp : l.Pairwise (fun a b => key a ≤ key b)) (a : α) (ha : a ∈ l) :
    key (l.headD default) ≤ key a := by
  cases l with
  | nil => simp at ha
  | cons x xs =>
      rcases List.pairwise_cons.mp hp with ⟨hx, _⟩
      rcases List.mem_cons.mp ha with rfl | ha
      · simp
      · simpa using hx a ha

theorem pairwise_le_getLastD' (l : List α) (d : α)
    (hp : l.Pairwise (fun a b => key a ≤ key b)) (a : α) (ha : a ∈ l) :
    key a ≤ key (l.getLastD d) := by
  induction l generalizing d with
  | nil => simp at ha
  | cons x xs ih =>
      rcases List.pairwise_cons.mp hp with ⟨hx, hxs⟩
      cases xs with
      | nil =>
          rcases List.mem_cons.mp ha with rfl | ha
          · simp
          · simp at ha
      | cons y ys =>
          rw [List.getLastD_cons]
          rcases List.mem_cons.mp ha with rfl | ha
          · exact hx _ (getLastD_mem' (y :: ys) a (by simp))
          · exact ih x hxs ha

theorem pairwise_le_getLastD [Inhabited α] (l : List α)
    (hp : l.Pairwise (fun a b => key a ≤ key b)) (a : α) (ha : a ∈ l) :
    key a ≤ key (l.getLastD default) := pairwise_le_getLastD' key l default hp a ha

theorem pySorted_eq_self (l : List α)
    (h : l.Chain' (fun a b => key a ≤ key b)) : pySorted key l = l := by
  induction l with
  | nil => rfl
  | cons x xs ih =>
      have hxs : xs.Chain' (fun a b => key a ≤ key b) := h.tail
      rw [pySorted, ih hxs]
      cases xs with
      | nil => rfl
      | cons y ys =>
          have hxy : key x ≤ key y := List.chain'_cons.mp h |>.1
          rw [insertAsc, if_pos hxy]

end SortLemmas

section SumLemmas

theorem sum_map_div (l : List ℚ) (T : ℚ) :
    (l.map (fun v => v / T)).sum = l.sum / T := by
  induction l with
  | nil => simp
  | cons x xs ih => simp [ih, add_div]

theorem sum_sq_le_sq_sum (l : List ℚ) (h : ∀ x ∈ l, 0 ≤ x) :
    (l.map (fun s => s ^ 2)).sum ≤ l.sum ^ 2 := by
  induction l with
  | nil => simp
  | cons x xs ih =>
      have hx : 0 ≤ x := h x (List.mem_cons_self x xs)
      have hxs : ∀ y ∈ xs, 0 ≤ y := fun y hy => h y (List.mem_cons_of_mem x hy)
      have hs : 0 ≤ xs.sum := List.sum_nonneg hxs
      have := ih hxs
      simp only [List.map_cons, List.sum_cons]
      nlinarith

theorem sum_sq_nonneg (l : List ℚ) : 0 ≤ (l.map (fun s => s ^ 2)).sum :=
  List.sum_nonneg (by
    intro x hx
    rcases List.mem_map.mp hx with ⟨y, _, rfl⟩
    exact sq_nonneg y)

end SumLemmas

section GroupLemmas

theorem sizeVal_nonneg (t : Trade) (h : ∀ q, t.size = RawNum.num q → 0 ≤ q) :
    0 ≤ sizeVal t := by
  unfold sizeVal
  cases hs : t.size with
  | num q => exact h q hs
  | missing => exact le_refl 0
  | bad => exact le_refl 0

theorem addToAssoc_nonneg (l : List (String × ℚ)) (k : String) (v : ℚ)
    (hl : ∀ p ∈ l, 0 ≤ p.2) (hv : 0 ≤ v) :
    ∀ p ∈ addToAssoc l k v, 0 ≤ p.2 := by
  induction l with
  | nil =>
      intro p hp
      simp only [addToAssoc, List.mem_singleton] at hp
      subst hp; exact hv
  | cons q rest ih =>
      intro p hp
      rcases q with ⟨k', v'⟩
      by_cases hk : k' = k
      · simp only [addToAssoc, if_pos hk, List.mem_cons] at hp
        rcases hp with rfl | hp
        · have := hl (k', v') (List.mem_cons_self _ _)
          exact add_nonneg this hv
        · exact hl p (List.mem_cons_of_mem _ hp)
      · simp only [addToAssoc, if_neg hk, List.mem_cons] at hp
        rcases hp with rfl | hp
        · exact hl (k', v') (List.mem_cons_self _ _)
        · exact ih (fun r hr => hl r (List.mem_cons_of_mem _ hr)) p hp

theorem foldl_group_nonneg (keyf : Trade → String) (trades : List Trade) :
    ∀ init : List (String × ℚ), (∀ p ∈ init, 0 ≤ p.2) →
    (∀ t ∈ trades, ∀ q, t.size = RawNum.num q → 0 ≤ q) →
    ∀ p ∈ trades.foldl
        (fun acc t => if sizeBad t then acc else addToAssoc acc (keyf t) (sizeVal t))
        init, 0 ≤ p.2 := by
  induction trades with
  | nil => intro init hinit _ p hp; exact hinit p hp
  | cons t ts ih =>
      intro init hinit hsz p hp
      simp only [List.foldl_cons] at hp
      by_cases hb : sizeBad t
      · rw [if_pos hb] at hp
        exact ih init hinit (fun u hu => hsz u (List.mem_cons_of_mem t hu)) p hp
      · rw [if_neg hb] at hp
        refine ih _ ?_ (fun u hu => hsz u (List.mem_cons_of_mem t hu)) p hp
        exact addToAssoc_nonneg init (keyf t) (sizeVal t) hinit
          (sizeVal_nonneg t (hsz t (List.mem_cons_self t ts)))

theorem addressVolumes_nonneg (trades : List Trade)
    (hsz : ∀ t ∈ trades, ∀ q, t.size = RawNum.num q → 0 ≤ q) :
    ∀ p ∈ addressVolumes trades, 0 ≤ p.2 :=
  foldl_group_nonneg addrOf trades [] (by simp) hsz

theorem outcomeVolumes_nonneg (trades : List Trade)
    (hsz : ∀ t ∈ trades, ∀ q, t.size = RawNum.num q → 0 ≤ q) :
    ∀ p ∈ outcomeVolumes trades, 0 ≤ p.2 :=
  foldl_group_nonneg (fun t => t.outcome.getD "unknown") trades [] (by simp) hsz

theorem appendToAssoc_forall {α : Type} {P : α → Prop}
    (l : List (String × List α)) (k : String) (x : α)
    (hl : ∀ g ∈ l, ∀ e ∈ g.2, P e) (hx : P x) :
    ∀ g ∈ appendToAssoc l k x, ∀ e ∈ g.2, P e := by
  induction l with
  | nil =>
      intro g hg e he
      simp only [appendToAssoc, List.mem_singleton] at hg
      subst hg
      simp only [List.mem_singleton] at he
      subst he; exact hx
  | cons q rest ih =>
      intro g hg e he
      rcases q with ⟨k', xs⟩
      by_cases hk : k' = k
      · simp only [appendToAssoc, if_pos hk, List.mem_cons] at hg
        rcases hg with rfl | hg
        · simp only [List.mem_append, List.mem_singleton] at he
          rcases he with he | rfl
          · exact hl (k', xs) (List.mem_cons_self _ _) e he
          · exact hx
        · exact hl g (List.mem_cons_of_mem _ hg) e he
      · simp only [appendToAssoc, if_neg hk, List.mem_cons] at hg
        rcases hg with rfl | hg
        · exact hl (k', xs) (List.mem_cons_self _ _) e he
        · exact ih (fun r hr => hl r (List.mem_cons_of_mem _ hr)) g hg e he

theorem relChanges_nonneg (l : List ℚ) (h : ∀ p ∈ l, 0 < p) :
    ∀ c ∈ PolymarketInsiderDetector.relChanges l, 0 ≤ c := by
  induction l with
  | nil => intro c hc; simp [PolymarketInsiderDetector.relChanges] at hc
  | cons p1 rest ih =>
      cases rest with
      | nil => intro c hc; simp [PolymarketInsiderDetector.relChanges] at hc
      | cons p2 tl =>
          intro c hc
          simp only [PolymarketInsiderDetector.relChanges, List.mem_append] at hc
          rcases hc with hc | hc
          · have hp1 : 0 < p1 := h p1 (List.mem_cons_self _ _)
            rw [if_pos (ne_of_gt hp1)] at hc
            simp only [List.mem_singleton] at hc
            subst hc
            exact div_nonneg (abs_nonneg _) (le_of_lt hp1)
          · exact ih (fun p hp => h p (List.mem_cons_of_mem _ hp)) c hc

end GroupLemmas

namespace PolymarketBacktester

theorem conc_score_bounds (trades : List Trade) :
    0 ≤ (analyze_position_concentration trades).1 ∧
    (analyze_position_concentration trades).1 ≤ 10 := by
  unfold analyze_position_concentration
  split
  · norm_num
  · dsimp only
    split
    · norm_num
    · refine ⟨le_min ?_ (by norm_num), min_le_right _ _⟩
      have := sum_sq_nonneg ((addressVolumes trades).map
        (fun p => p.2 / ((addressVolumes trades).map (fun p => p.2)).sum))
      nlinarith

theorem vel_score_bounds (trades : List Trade) :
    0 ≤ (analyze_volume_velocity trades).1 ∧
    (analyze_volume_velocity trades).1 ≤ 10 := by
  unfold analyze_volume_velocity
  split
  · norm_num
  · dsimp only
    split
    · norm_num
    · refine ⟨le_min ?_ (by norm_num), min_le_right _ _⟩
      have h1 : (0:ℚ) ≤ (pySorted tsRaw trades).length := by positivity
      have h2 : (0:ℚ) ≤ max (if tsRaw ((pySorted tsRaw trades).getLastD default) ≠
          tsRaw ((pySorted tsRaw trades).headD default) then
          (tsRaw ((pySorted tsRaw trades).getLastD default) -
           tsRaw ((pySorted tsRaw trades).headD default)) / 3600 else 1) (1/10) :=
        le_trans (by norm_num) (le_max_right _ _)
      positivity

theorem skew_score_bounds (trades : List Trade) :
    0 ≤ (analyze_outcome_skew trades).1 ∧
    (analyze_outcome_skew trades).1 ≤ 10 := by
  unfold analyze_outcome_skew
  split
  · norm_num
  · dsimp only
    split
    · norm_num
    · exact ⟨le_min (mul_nonneg (abs_nonneg _) (by norm_num)) (by norm_num),
             min_le_right _ _⟩

theorem whale_score_le (trades : List Trade) :
    (analyze_whale_accumulation trades).1 ≤ 10 := by
  unfold analyze_whale_accumulation
  split
  · norm_num
  · dsimp only
    split
    · norm_num
    · exact min_le_right _ _

theorem calc_prob_le (sc : Scores)
    (hc : sc.concentration.getD 0 ≤ 10) (hv : sc.velocity.getD 0 ≤ 10)
    (hs : sc.skew.getD 0 ≤ 10) (hw : sc.whale.getD 0 ≤ 10) :
    calculate_insider_probability sc ≤ (85/100) := by
  unfold calculate_insider_probability
  refine le_trans (min_le_left _ _) ?_
  linarith

theorem calc_prob_nonneg (sc : Scores)
    (hc : 0 ≤ sc.concentration.getD 0) (hv : 0 ≤ sc.velocity.getD 0)
    (hs : 0 ≤ sc.skew.getD 0) (hw : 0 ≤ sc.whale.getD 0) :
    0 ≤ calculate_insider_probability sc := by
  unfold calculate_insider_probability
  refine le_min ?_ (by norm_num)
  have h1 : 0 ≤ sc.concentration.getD 0 * 0.25 := by linarith
  have h2 : 0 ≤ sc.velocity.getD 0 * 0.15 := by linarith
  have h3 : 0 ≤ sc.skew.getD 0 * 0.20 := by linarith
  have h4 : 0 ≤ sc.whale.getD 0 * 0.25 := by linarith
  linarith

theorem signal_value_le (ts : List Trade) (i : ℕ) :
    signal_value ts i ≤ (85/100) := by
  unfold signal_value window_scores
  exact calc_prob_le _ (conc_score_bounds _).2 (vel_score_bounds _).2
    (skew_score_bounds _).2 (whale_score_le _)

theorem fsp_loop_spec (ts : List Trade) :
    ∀ (k a : ℕ) (m0 : ℚ) (t0 : Option ℚ),
      m0 ≤ (fsp_loop ts (List.range' a k) m0 t0).1 ∧
      (∀ i, a ≤ i → i < a + k →
        signal_value ts i ≤ (fsp_loop ts (List.range' a k) m0 t0).1) ∧
      (fsp_loop ts (List.range' a k) m0 t0 = (m0, t0) ∨
       ∃ i, a ≤ i ∧ i < a + k ∧
         fsp_loop ts (List.range' a k) m0 t0
           = (signal_value ts i, some (tsRaw (ts.getD i default))) ∧
         m0 < signal_value ts i ∧
         ∀ j, a ≤ j → j < i → signal_value ts j < signal_value ts i) := by
  intro k
  induction k with
  | zero =>
      intro a m0 t0
      refine ⟨le_refl _, ?_, Or.inl rfl⟩
      intro i hai hia
      omega
  | succ k ih =>
      intro a m0 t0
      have hr : List.range' a (k + 1) = a :: List.range' (a + 1) k :=
        List.range'_succ a k 1
      rw [hr]
      by_cases hlt : m0 < signal_value ts a
      · have hstep : fsp_loop ts (a :: List.range' (a + 1) k) m0 t0 =
            fsp_loop ts (List.range' (a + 1) k) (signal_value ts a)
              (some (tsRaw (ts.getD a default))) := by
          rw [fsp_loop, if_pos hlt]
        rw [hstep]
        obtain ⟨h1, h2, h3⟩ := ih (a + 1) (signal_value ts a)
          (some (tsRaw (ts.getD a default)))
        refine ⟨le_trans (le_of_lt hlt) h1, ?_, ?_⟩
        · intro i hai hik
          rcases Nat.eq_or_lt_of_le hai with rfl | hai'
          · exact h1
          · exact h2 i hai' (by omega)
        · rcases h3 with heq | ⟨i, hi1, hi2, hi3, hi4, hi5⟩
          · refine Or.inr ⟨a, le_refl a, by omega, heq, hlt, ?_⟩
            intro j hj1 hj2; omega
          · refine Or.inr ⟨i, by omega, by omega, hi3, lt_trans hlt hi4, ?_⟩
            intro j hj1 hj2
            rcases Nat.eq_or_lt_of_le hj1 with rfl | hj1'
            · exact hi4
            · exact hi5 j hj1' hj2
      · have hstep : fsp_loop ts (a :: List.range' (a + 1) k) m0 t0 =
            fsp_loop ts (List.range' (a + 1) k) m0 t0 := by
          rw [fsp_loop, if_neg hlt]
        rw [hstep]
        obtain ⟨h1, h2, h3⟩ := ih (a + 1) m0 t0
        have hle : signal_value ts a ≤ m0 := le_of_not_lt hlt
        refine ⟨h1, ?_, ?_⟩
        · intro i hai hik
          rcases Nat.eq_or_lt_of_le hai with rfl | hai'
          · exact le_trans hle h1
          · exact h2 i hai' (by omega)
        · rcases h3 with heq | ⟨i, hi1, hi2, hi3, hi4, hi5⟩
          · exact Or.inl heq
          · refine Or.inr ⟨i, by omega, by omega, hi3, hi4, ?_⟩
            intro j hj1 hj2
            rcases Nat.eq_or_lt_of_le hj1 with rfl | hj1'
            · exact lt_of_le_of_lt hle hi4
            · exact hi5 j hj1' hj2

end PolymarketBacktester

namespace PolymarketBacktester

theorem backtest_market_some_spec (market : Market) (trades : List Trade)
    (hist : MarketHistory) (now : ℚ) (r : BacktestResult)
    (h : backtest_market market trades hist now = some r) :
    r.insider_probability = ((find_signal_point trades).2).getD 0 ∧
    r.market_resolved = hist.resolutionSource.isSome ∧
    r.actual_outcome = hist.resolvedBy ∧
    r.predicted_correctly = ((hist.resolutionSource.isSome &&
        (match hist.resolvedBy with | some s => decide (s ≠ "") | none => false)) &&
        decide (r.outcome_prediction = hist.resolvedBy.getD "")) ∧
    r.time_to_resolution_hours = (if (hist.resolutionSource.isSome &&
        (match hist.resolvedBy with | some s => decide (s ≠ "") | none => false)) = true
      then some ((hist.resolvedTime.getD (r.signal_timestamp + 86400) -
                  r.signal_timestamp) / 3600) else none) := by
  unfold backtest_market at h
  dsimp only at h
  split at h
  · exact absurd h (by simp)
  · split at h
    · exact absurd h (by simp)
    · split at h
      · exact absurd h (by simp)
      · rename_i ts prob heq
        split at h
        · rename_i pre post hpre hpost
          rw [Option.some_inj] at h
          subst h
          rw [heq]
          refine ⟨rfl, rfl, rfl, ?_, ?_⟩
          · cases hb : (hist.resolutionSource.isSome &&
              (match hist.resolvedBy with
               | some s => decide (s ≠ "") | none => false)) <;>
              simp [hb]
          · cases hb : (hist.resolutionSource.isSome &&
              (match hist.resolvedBy with
               | some s => decide (s ≠ "") | none => false)) <;>
              simp [hb]
        · exact absurd h (by simp)

end PolymarketBacktester

/-- The first ten trades of `exBacktestTrades`. -/
def exB10 : List Trade := exBacktestTrades.take 10

theorem exB10_eq : exB10 = [sampleTrade 0 "w" 1 "Yes" (1/2), sampleTrade 100 "w" 1 "Yes" (1/2),
   sampleTrade 200 "w" 1 "Yes" (1/2), sampleTrade 300 "w" 1 "Yes" (1/2),
   sampleTrade 400 "w" 1 "Yes" (1/2), sampleTrade 500 "w" 1 "Yes" (1/2),
   sampleTrade 600 "w" 1 "Yes" (1/2), sampleTrade 700 "w" 1 "Yes" (1/2),
   sampleTrade 800 "w" 1 "Yes" (1/2), sampleTrade 900 "w" 1 "Yes" (1/2)] := rfl

/-- The first eleven trades of `exBacktestTrades`. -/
def exB11 : List Trade := exBacktestTrades.take 11

theorem exB11_eq : exB11 = [sampleTrade 0 "w" 1 "Yes" (1/2), sampleTrade 100 "w" 1 "Yes" (1/2),
   sampleTrade 200 "w" 1 "Yes" (1/2), sampleTrade 300 "w" 1 "Yes" (1/2),
   sampleTrade 400 "w" 1 "Yes" (1/2), sampleTrade 500 "w" 1 "Yes" (1/2),
   sampleTrade 600 "w" 1 "Yes" (1/2), sampleTrade 700 "w" 1 "Yes" (1/2),
   sampleTrade 800 "w" 1 "Yes" (1/2), sampleTrade 900 "w" 1 "Yes" (1/2),
   sampleTrade 1000 "w" 1 "Yes" (1/2)] := rfl

/-- The first ten trades of `elevenSpaced`. -/
def eS10 : List Trade := elevenSpaced.take 10

theorem eS10_eq : eS10 = [sampleTrade 0 "v" 1 "Yes" (1/2), sampleTrade 400 "v" 1 "Yes" (1/2),
   sampleTrade 800 "v" 1 "Yes" (1/2), sampleTrade 1200 "v" 1 "Yes" (1/2),
   sampleTrade 1600 "v" 1 "Yes" (1/2), sampleTrade 2000 "v" 1 "Yes" (1/2),
   sampleTrade 2400 "v" 1 "Yes" (1/2), sampleTrade 2800 "v" 1 "Yes" (1/2),
   sampleTrade 3200 "v" 1 "Yes" (1/2), sampleTrade 3600 "v" 1 "Yes" (1/2)] := rfl

/-- `tenTrades` is its own 10-window. -/
def tT10 : List Trade := tenTrades.take 10

theorem tT10_eq : tT10 = [sampleTrade 0 "u" 1 "Yes" (1/2), sampleTrade 3600 "u" 1 "Yes" (1/2),
   sampleTrade 7200 "u" 1 "Yes" (1/2), sampleTrade 10800 "u" 1 "Yes" (1/2),
   sampleTrade 14400 "u" 1 "Yes" (1/2), sampleTrade 18000 "u" 1 "Yes" (1/2),
   sampleTrade 21600 "u" 1 "Yes" (1/2), sampleTrade 25200 "u" 1 "Yes" (1/2),
   sampleTrade 28800 "u" 1 "Yes" (1/2), sampleTrade 32400 "u" 1 "Yes" (1/2)] := rfl

theorem exB10_ne : exB10 ≠ [] := by rw [exB10_eq]; simp

theorem exB10_chain : exB10.Chain' (fun a b => tsRaw a ≤ tsRaw b) := by
  simp only [exB10_eq, sampleTrade, List.chain'_cons, List.chain'_singleton,
    tsRaw, Option.getD_some, and_true]
  norm_num

theorem exB10_sorted : pySorted tsRaw exB10 = exB10 :=
  pySorted_eq_self tsRaw exB10 exB10_chain

theorem exB10_av : addressVolumes exB10 = [("w", 10)] := by
  norm_num [exB10_eq, addressVolumes, addToAssoc, sizeBad, sizeVal, addrOf,
    sampleTrade, List.foldl]

theorem exB10_ov : outcomeVolumes exB10 = [("Yes", 10)] := by
  norm_num [exB10_eq, outcomeVolumes, addToAssoc, sizeBad, sizeVal,
    sampleTrade, List.foldl]

theorem exB10_groups :
    PolymarketBacktester.addressSizeGroups exB10 = [("w", [1, 1, 1, 1, 1, 1, 1, 1, 1, 1])] := by
  norm_num [exB10_eq, PolymarketBacktester.addressSizeGroups, appendToAssoc,
    sizeBad, sizeVal, addrOf, sampleTrade, List.foldl]

theorem exB10_conc :
    (PolymarketBacktester.analyze_position_concentration exB10).1 = 10 := by
  unfold PolymarketBacktester.analyze_position_concentration
  rw [if_neg exB10_ne]
  dsimp only
  rw [exB10_av]
  norm_num

theorem exB10_vel :
    (PolymarketBacktester.analyze_volume_velocity exB10).1 = 4 := by
  unfold PolymarketBacktester.analyze_volume_velocity
  rw [if_neg exB10_ne]
  dsimp only
  rw [exB10_sorted]
  rw [if_neg (show ¬ exB10.length < 2 by rw [exB10_eq]; norm_num)]
  rw [exB10_eq]
  norm_num [sampleTrade, tsRaw, List.getLastD, List.headD, max_def, min_def]

theorem exB10_skew :
    PolymarketBacktester.analyze_outcome_skew exB10 =
      (10, some { outcome_distribution := [("Yes", 1)],
                   largest_outcome_share := 1 }) := by
  have hr : pyRound 1 3 = 1 := by with_unfolding_all decide
  have habs : |(1:ℚ)/2| = 1/2 := by rw [abs_of_nonneg] <;> norm_num
  unfold PolymarketBacktester.analyze_outcome_skew
  rw [if_neg exB10_ne]
  dsimp only
  rw [exB10_ov]
  norm_num [pySortedDesc, pySorted, insertAsc, pyMaxQ, hr, habs, min_def]

theorem exB10_whale :
    (PolymarketBacktester.analyze_whale_accumulation exB10).1 = 1/100 := by
  unfold PolymarketBacktester.analyze_whale_accumulation
  rw [if_neg exB10_ne]
  dsimp only
  rw [exB10_groups]
  norm_num [pyMaxQ, List.filterMap, List.foldl, min_def]

theorem exB11_ne : exB11 ≠ [] := by rw [exB11_eq]; simp

theorem exB11_chain : exB11.Chain' (fun a b => tsRaw a ≤ tsRaw b) := by
  simp only [exB11_eq, sampleTrade, List.chain'_cons, List.chain'_singleton,
    tsRaw, Option.getD_some, and_true]
  norm_num

theorem exB11_sorted : pySorted tsRaw exB11 = exB11 :=
  pySorted_eq_self tsRaw exB11 exB11_chain

theorem exB11_av : addressVolumes exB11 = [("w", 11)] := by
  norm_num [exB11_eq, addressVolumes, addToAssoc, sizeBad, sizeVal, addrOf,
    sampleTrade, List.foldl]

theorem exB11_ov : outcomeVolumes exB11 = [("Yes", 11)] := by
  norm_num [exB11_eq, outcomeVolumes, addToAssoc, sizeBad, sizeVal,
    sampleTrade, List.foldl]

theorem exB11_groups :
    PolymarketBacktester.addressSizeGroups exB11 = [("w", [1, 1, 1, 1, 1, 1, 1, 1, 1, 1, 1])] := by
  norm_num [exB11_eq, PolymarketBacktester.addressSizeGroups, appendToAssoc,
    sizeBad, sizeVal, addrOf, sampleTrade, List.foldl]

theorem exB11_conc :
    (PolymarketBacktester.analyze_position_concentration exB11).1 = 10 := by
  unfold PolymarketBacktester.analyze_position_concentration
  rw [if_neg exB11_ne]
  dsimp only
  rw [exB11_av]
  norm_num

theorem exB11_vel :
    (PolymarketBacktester.analyze_volume_velocity exB11).1 = 99/25 := by
  unfold PolymarketBacktester.analyze_volume_velocity
  rw [if_neg exB11_ne]
  dsimp only
  rw [exB11_sorted]
  rw [if_neg (show ¬ exB11.length < 2 by rw [exB11_eq]; norm_num)]
  rw [exB11_eq]
  norm_num [sampleTrade, tsRaw, List.getLastD, List.headD, max_def, min_def]

theorem exB11_skew :
    (PolymarketBacktester.analyze_outcome_skew exB11).1 = 10 := by
  have habs : |(1:ℚ)/2| = 1/2 := by rw [abs_of_nonneg] <;> norm_num
  unfold PolymarketBacktester.analyze_outcome_skew
  rw [if_neg exB11_ne]
  dsimp only
  rw [exB11_ov]
  norm_num [pySortedDesc, pySorted, insertAsc, pyMaxQ, habs, min_def]

theorem exB11_whale :
    (PolymarketBacktester.analyze_whale_accumulation exB11).1 = 11/1000 := by
  unfold PolymarketBacktester.analyze_whale_accumulation
  rw [if_neg exB11_ne]
  dsimp only
  rw [exB11_groups]
  norm_num [pyMaxQ, List.filterMap, List.foldl, min_def]

theorem eS10_ne : eS10 ≠ [] := by rw [eS10_eq]; simp

theorem eS10_chain : eS10.Chain' (fun a b => tsRaw a ≤ tsRaw b) := by
  simp only [eS10_eq, sampleTrade, List.chain'_cons, List.chain'_singleton,
    tsRaw, Option.getD_some, and_true]
  norm_num

theorem eS10_sorted : pySorted tsRaw eS10 = eS10 :=
  pySorted_eq_self tsRaw eS10 eS10_chain

theorem eS10_av : addressVolumes eS10 = [("v", 10)] := by
  norm_num [eS10_eq, addressVolumes, addToAssoc, sizeBad, sizeVal, addrOf,
    sampleTrade, List.foldl]

theorem eS10_ov : outcomeVolumes eS10 = [("Yes", 10)] := by
  norm_num [eS10_eq, outcomeVolumes, addToAssoc, sizeBad, sizeVal,
    sampleTrade, List.foldl]

theorem eS10_groups :
    PolymarketBacktester.addressSizeGroups eS10 = [("v", [1, 1, 1, 1, 1, 1, 1, 1, 1, 1])] := by
  norm_num [eS10_eq, PolymarketBacktester.addressSizeGroups, appendToAssoc,
    sizeBad, sizeVal, addrOf, sampleTrade, List.foldl]

theorem eS10_conc :
    (PolymarketBacktester.analyze_position_concentration eS10).1 = 10 := by
  unfold PolymarketBacktester.analyze_position_concentration
  rw [if_neg eS10_ne]
  dsimp only
  rw [eS10_av]
  norm_num

theorem eS10_vel :
    (PolymarketBacktester.analyze_volume_velocity eS10).1 = 1 := by
  unfold PolymarketBacktester.analyze_volume_velocity
  rw [if_neg eS10_ne]
  dsimp only
  rw [eS10_sorted]
  rw [if_neg (show ¬ eS10.length < 2 by rw [eS10_eq]; norm_num)]
  rw [eS10_eq]
  norm_num [sampleTrade, tsRaw, List.getLastD, List.headD, max_def, min_def]

theorem eS10_skew :
    (PolymarketBacktester.analyze_outcome_skew eS10).1 = 10 := by
  have habs : |(1:ℚ)/2| = 1/2 := by rw [abs_of_nonneg] <;> norm_num
  unfold PolymarketBacktester.analyze_outcome_skew
  rw [if_neg eS10_ne]
  dsimp only
  rw [eS10_ov]
  norm_num [pySortedDesc, pySorted, insertAsc, pyMaxQ, habs, min_def]

theorem eS10_whale :
    (PolymarketBacktester.analyze_whale_accumulation eS10).1 = 1/100 := by
  unfold PolymarketBacktester.analyze_whale_accumulation
  rw [if_neg eS10_ne]
  dsimp only
  rw [eS10_groups]
  norm_num [pyMaxQ, List.filterMap, List.foldl, min_def]

theorem tT10_ne : tT10 ≠ [] := by rw [tT10_eq]; simp

theorem tT10_chain : tT10.Chain' (fun a b => tsRaw a ≤ tsRaw b) := by
  simp only [tT10_eq, sampleTrade, List.chain'_cons, List.chain'_singleton,
    tsRaw, Option.getD_some, and_true]
  norm_num

theorem tT10_sorted : pySorted tsRaw tT10 = tT10 :=
  pySorted_eq_self tsRaw tT10 tT10_chain

theorem tT10_av : addressVolumes tT10 = [("u", 10)] := by
  norm_num [tT10_eq, addressVolumes, addToAssoc, sizeBad, sizeVal, addrOf,
    sampleTrade, List.foldl]

theorem tT10_ov : outcomeVolumes tT10 = [("Yes", 10)] := by
  norm_num [tT10_eq, outcomeVolumes, addToAssoc, sizeBad, sizeVal,
    sampleTrade, List.foldl]

theorem tT10_groups :
    PolymarketBacktester.addressSizeGroups tT10 = [("u", [1, 1, 1, 1, 1, 1, 1, 1, 1, 1])] := by
  norm_num [tT10_eq, PolymarketBacktester.addressSizeGroups, appendToAssoc,
    sizeBad, sizeVal, addrOf, sampleTrade, List.foldl]

theorem tT10_conc :
    (PolymarketBacktester.analyze_position_concentration tT10).1 = 10 := by
  unfold PolymarketBacktester.analyze_position_concentration
  rw [if_neg tT10_ne]
  dsimp only
  rw [tT10_av]
  norm_num

theorem tT10_vel :
    (PolymarketBacktester.analyze_volume_velocity tT10).1 = 1/9 := by
  unfold PolymarketBacktester.analyze_volume_velocity
  rw [if_neg tT10_ne]
  dsimp only
  rw [tT10_sorted]
  rw [if_neg (show ¬ tT10.length < 2 by rw [tT10_eq]; norm_num)]
  rw [tT10_eq]
  norm_num [sampleTrade, tsRaw, List.getLastD, List.headD, max_def, min_def]

theorem tT10_skew :
    (PolymarketBacktester.analyze_outcome_skew tT10).1 = 10 := by
  have habs : |(1:ℚ)/2| = 1/2 := by rw [abs_of_nonneg] <;> norm_num
  unfold PolymarketBacktester.analyze_outcome_skew
  rw [if_neg tT10_ne]
  dsimp only
  rw [tT10_ov]
  norm_num [pySortedDesc, pySorted, insertAsc, pyMaxQ, habs, min_def]

theorem tT10_whale :
    (PolymarketBacktester.analyze_whale_accumulation tT10).1 = 1/100 := by
  unfold PolymarketBacktester.analyze_whale_accumulation
  rw [if_neg tT10_ne]
  dsimp only
  rw [tT10_groups]
  norm_num [pyMaxQ, List.filterMap, List.foldl, min_def]

theorem signal_exBacktestTrades_10 :
    PolymarketBacktester.signal_value exBacktestTrades 10 = 2041/4000 := by
  unfold PolymarketBacktester.signal_value PolymarketBacktester.window_scores
  rw [show exBacktestTrades.take 10 = exB10 from rfl,
      exB10_conc, exB10_vel, exB10_skew, exB10_whale]
  norm_num [PolymarketBacktester.calculate_insider_probability, min_def]

theorem signal_exBacktestTrades_11 :
    PolymarketBacktester.signal_value exBacktestTrades 11 = 20387/40000 := by
  unfold PolymarketBacktester.signal_value PolymarketBacktester.window_scores
  rw [show exBacktestTrades.take 11 = exB11 from rfl,
      exB11_conc, exB11_vel, exB11_skew, exB11_whale]
  norm_num [PolymarketBacktester.calculate_insider_probability, min_def]

theorem signal_elevenSpaced_10 :
    PolymarketBacktester.signal_value elevenSpaced 10 = 1861/4000 := by
  unfold PolymarketBacktester.signal_value PolymarketBacktester.window_scores
  rw [show elevenSpaced.take 10 = eS10 from rfl,
      eS10_conc, eS10_vel, eS10_skew, eS10_whale]
  norm_num [PolymarketBacktester.calculate_insider_probability, min_def]

theorem signal_tenTrades_10 :
    PolymarketBacktester.signal_value tenTrades 10 = 5423/12000 := by
  unfold PolymarketBacktester.signal_value PolymarketBacktester.window_scores
  rw [show tenTrades.take 10 = tT10 from rfl,
      tT10_conc, tT10_vel, tT10_skew, tT10_whale]
  norm_num [PolymarketBacktester.calculate_insider_probability, min_def]

theorem pySorted_tenTrades : pySorted tsRaw tenTrades = tenTrades := by
  apply pySorted_eq_self
  simp only [tenTrades, sampleTrade, List.chain'_cons, List.chain'_singleton,
    tsRaw, Option.getD_some, and_true]
  norm_num

theorem pySorted_elevenSpaced : pySorted tsRaw elevenSpaced = elevenSpaced := by
  apply pySorted_eq_self
  simp only [elevenSpaced, sampleTrade, List.chain'_cons, List.chain'_singleton,
    tsRaw, Option.getD_some, and_true]
  norm_num

theorem pySorted_exBacktestTrades :
    pySorted tsRaw exBacktestTrades = exBacktestTrades := by
  apply pySorted_eq_self
  simp only [exBacktestTrades, sampleTrade, List.chain'_cons, List.chain'_singleton,
    tsRaw, Option.getD_some, and_true]
  norm_num

theorem find_exBacktestTrades_eq :
    PolymarketBacktester.find_signal_point exBacktestTrades
      = (some 1000, some (2041/4000)) := by
  unfold PolymarketBacktester.find_signal_point
  rw [if_neg (by decide : ¬ exBacktestTrades.length < 10)]
  dsimp only
  rw [pySorted_exBacktestTrades,
      show List.range' 10 (exBacktestTrades.length - 10) = [10, 11] from by decide]
  have hg : tsRaw (exBacktestTrades.getD 10 default) = 1000 := by
    simp [exBacktestTrades, List.getD, sampleTrade, tsRaw]
  simp only [PolymarketBacktester.fsp_loop, signal_exBacktestTrades_10,
    signal_exBacktestTrades_11, hg]
  norm_num

theorem find_elevenSpaced_eq :
    PolymarketBacktester.find_signal_point elevenSpaced
      = (some 4000, some (1861/4000)) := by
  unfold PolymarketBacktester.find_signal_point
  rw [if_neg (by decide : ¬ elevenSpaced.length < 10)]
  dsimp only
  rw [pySorted_elevenSpaced,
      show List.range' 10 (elevenSpaced.length - 10) = [10] from by decide]
  have hg : tsRaw (elevenSpaced.getD 10 default) = 4000 := by
    simp [elevenSpaced, List.getD, sampleTrade, tsRaw]
  simp only [PolymarketBacktester.fsp_loop, signal_elevenSpaced_10, hg]
  norm_num

theorem backtest_exBacktestTrades_eq :
    PolymarketBacktester.backtest_market exMarket exBacktestTrades {} 0
      = some exBacktestResult := by
  have htas : PolymarketBacktester.get_trades_before_timestamp exBacktestTrades 1000
      = exB10 := by
    rw [exB10_eq]
    norm_num [PolymarketBacktester.get_trades_before_timestamp, exBacktestTrades,
      List.filter, tsRaw, sampleTrade]
  have hpre : PolymarketBacktester.get_market_price_at_timestamp exB10 1000
      = some (1/2) := by with_unfolding_all decide
  have hpost : PolymarketBacktester.get_market_price_at_timestamp exBacktestTrades
      (1000 + 3600) = some (1/2) := by with_unfolding_all decide
  unfold PolymarketBacktester.backtest_market
  rw [find_exBacktestTrades_eq]
  dsimp only
  have hr10 : pyRound 10 2 = 10 := by with_unfolding_all decide
  have hr4 : pyRound 4 2 = 4 := by with_unfolding_all decide
  have hrw : pyRound (1/100) 2 = 1/100 := by with_unfolding_all decide
  have hrp : pyRound (1/2) 4 = 1/2 := by with_unfolding_all decide
  have hrm : pyRound (1/2 - 1/2) 4 = 0 := by with_unfolding_all decide
  have hr0 : pyRound ((1/2 - 1/2) / (1/2) * 100) 2 = 0 := by
    with_unfolding_all decide
  have hmax : pyMaxByVal [(("Yes" : String), (1 : ℚ))] = some ("Yes", 1) := by
    with_unfolding_all decide
  have hlw : exB10.length = 10 := by rw [exB10_eq]; norm_num
  have hz4 : pyRound 0 4 = 0 := by with_unfolding_all decide
  have hz2 : pyRound 0 2 = 0 := by with_unfolding_all decide
  have hl12 : exBacktestTrades.length = 12 := by norm_num [exBacktestTrades]
  rw [htas, hpre, hpost, exB10_conc, exB10_vel, exB10_skew, exB10_whale]
  norm_num [exBacktestResult, exMarket, hr10, hr4, hrw, hrp, hrm, hr0, hmax, hlw]
  exact ⟨by decide, by rw [hl12]; norm_num, hz4, hz2⟩

/-- C1 (amended).  `find_signal_point` on a list of at least 10 trades sorts
ascending by timestamp and scans the windows `trades_sorted[:i]` only for
`i` from 10 to `len - 1` (`range(10, len)` excludes `len`, so the full list
is never a window and a 10-trade list is not scanned at all).  It returns
the maximum aggregate probability seen, starting from 0, together with the
timestamp of `trades_sorted[i]` — the first trade after the maximizing
window, not the window's last trade.  Ties keep the earliest maximum since
the scan only updates on strict `>`; when no window beats 0 the timestamp is
`None`. -/
theorem C1_signal_scan (trades : List Trade) (h10 : 10 ≤ trades.length) :
    ∃ m : ℚ, (PolymarketBacktester.find_signal_point trades).2 = some m ∧ 0 ≤ m ∧
      (∀ i, 10 ≤ i → i < trades.length →
        PolymarketBacktester.signal_value (pySorted tsRaw trades) i ≤ m) ∧
      (((PolymarketBacktester.find_signal_point trades).1 = none ∧ m = 0) ∨
       ∃ i, 10 ≤ i ∧ i < trades.length ∧
         PolymarketBacktester.signal_value (pySorted tsRaw trades) i = m ∧ 0 < m ∧
         (PolymarketBacktester.find_signal_point trades).1
           = some (tsRaw ((pySorted tsRaw trades).getD i default)) ∧
         ∀ j, 10 ≤ j → j < i →
           PolymarketBacktester.signal_value (pySorted tsRaw trades) j <
             PolymarketBacktester.signal_value (pySorted tsRaw trades) i) := by
  have hlen : (pySorted tsRaw trades).length = trades.length := pySorted_length _ _
  have hnot : ¬ trades.length < 10 := by omega
  have hsum : 10 + (trades.length - 10) = trades.length := by omega
  obtain ⟨h1, h2, h3⟩ := PolymarketBacktester.fsp_loop_spec (pySorted tsRaw trades)
      (trades.length - 10) 10 0 none
  rw [hsum] at h2 h3
  simp only [PolymarketBacktester.find_signal_point, if_neg hnot, hlen]
  refine ⟨(PolymarketBacktester.fsp_loop (pySorted tsRaw trades)
      (List.range' 10 (trades.length - 10)) 0 none).1, rfl, h1, h2, ?_⟩
  rcases h3 with heq | ⟨i, hi1, hi2, hi3, hi4, hi5⟩
  · exact Or.inl ⟨by rw [heq], by rw [heq]⟩
  · exact Or.inr ⟨i, hi1, hi2, by rw [hi3], by rw [hi3]; exact hi4, by rw [hi3], hi5⟩

/-- C1 counterexample: on exactly ten trades the scan loop `range(10, 10)`
is empty, so `find_signal_point` returns `(None, 0)` even though the
aggregate probability of the full ten-trade window is positive — the claim
instead demands the maximum over window lengths 10..len (including len) and
the maximizing window's last trade timestamp. -/
theorem C1_counterexample :
    PolymarketBacktester.find_signal_point tenTrades = (none, some 0) ∧
    tenTrades.length = 10 ∧
    0 < PolymarketBacktester.signal_value (pySorted tsRaw tenTrades) 10 := by
  refine ⟨?_, by decide, ?_⟩
  · unfold PolymarketBacktester.find_signal_point
    rw [if_neg (by decide : ¬ tenTrades.length < 10)]
    dsimp only
    rw [pySorted_tenTrades,
        show List.range' 10 (tenTrades.length - 10) = [] from by decide]
    rfl
  · rw [pySorted_tenTrades]
    rw [signal_tenTrades_10]
    with_unfolding_all decide

/-- C1 witness: the amended characterization instantiated on the concrete
twelve-trade input. -/
theorem C1_witness :
    ∃ m : ℚ, (PolymarketBacktester.find_signal_point exBacktestTrades).2 = some m ∧ 0 ≤ m ∧
      (∀ i, 10 ≤ i → i < exBacktestTrades.length →
        PolymarketBacktester.signal_value (pySorted tsRaw exBacktestTrades) i ≤ m) ∧
      (((PolymarketBacktester.find_signal_point exBacktestTrades).1 = none ∧ m = 0) ∨
       ∃ i, 10 ≤ i ∧ i < exBacktestTrades.length ∧
         PolymarketBacktester.signal_value (pySorted tsRaw exBacktestTrades) i = m ∧ 0 < m ∧
         (PolymarketBacktester.find_signal_point exBacktestTrades).1
           = some (tsRaw ((pySorted tsRaw exBacktestTrades).getD i default)) ∧
         ∀ j, 10 ≤ j → j < i →
           PolymarketBacktester.signal_value (pySorted tsRaw exBacktestTrades) j <
             PolymarketBacktester.signal_value (pySorted tsRaw exBacktestTrades) i) :=
  C1_signal_scan exBacktestTrades (by decide)

/-- C10 (confirmed): the backtester's aggregator never applies the movement
weight, so on scores in [0, 10] it returns at most
0.25 + 0.15 + 0.20 + 0.25 = (85/100) of the full scale; consequently every
probability `find_signal_point` returns, and every
`BacktestResult.insider_probability`, lies in [0, (85/100)]. -/
theorem C10_probability_cap :
    (∀ sc : Scores,
      (∀ q : ℚ, (sc.concentration = some q ∨ sc.velocity = some q ∨
                 sc.skew = some q ∨ sc.movement = some q ∨ sc.whale = some q) →
        0 ≤ q ∧ q ≤ 10) →
      0 ≤ PolymarketBacktester.calculate_insider_probability sc ∧
      PolymarketBacktester.calculate_insider_probability sc ≤ (85/100)) ∧
    (∀ (trades : List Trade) (p : ℚ),
      (PolymarketBacktester.find_signal_point trades).2 = some p →
      0 ≤ p ∧ p ≤ (85/100)) ∧
    (∀ (market : PolymarketBacktester.Market) (trades : List Trade)
       (hist : PolymarketBacktester.MarketHistory) (now : ℚ)
       (r : PolymarketBacktester.BacktestResult),
      PolymarketBacktester.backtest_market market trades hist now = some r →
      0 ≤ r.insider_probability ∧ r.insider_probability ≤ (85/100)) := by
  have hfield : ∀ (o : Option ℚ), (∀ q : ℚ, o = some q → 0 ≤ q ∧ q ≤ 10) →
      0 ≤ o.getD 0 ∧ o.getD 0 ≤ 10 := by
    intro o ho
    cases o with
    | none => norm_num
    | some q => simpa using ho q rfl
  have part1 : ∀ sc : Scores,
      (∀ q : ℚ, (sc.concentration = some q ∨ sc.velocity = some q ∨
                 sc.skew = some q ∨ sc.movement = some q ∨ sc.whale = some q) →
        0 ≤ q ∧ q ≤ 10) →
      0 ≤ PolymarketBacktester.calculate_insider_probability sc ∧
      PolymarketBacktester.calculate_insider_probability sc ≤ (85/100) := by
    intro sc hsc
    have hc := hfield sc.concentration (fun q hq => hsc q (Or.inl hq))
    have hv := hfield sc.velocity (fun q hq => hsc q (Or.inr (Or.inl hq)))
    have hs := hfield sc.skew (fun q hq => hsc q (Or.inr (Or.inr (Or.inl hq))))
    have hw := hfield sc.whale
      (fun q hq => hsc q (Or.inr (Or.inr (Or.inr (Or.inr hq)))))
    exact ⟨PolymarketBacktester.calc_prob_nonneg sc hc.1 hv.1 hs.1 hw.1,
           PolymarketBacktester.calc_prob_le sc hc.2 hv.2 hs.2 hw.2⟩
  have part2 : ∀ (trades : List Trade) (p : ℚ),
      (PolymarketBacktester.find_signal_point trades).2 = some p →
      0 ≤ p ∧ p ≤ (85/100) := by
    intro trades p hp
    by_cases hlt : trades.length < 10
    · rw [PolymarketBacktester.find_signal_point, if_pos hlt] at hp
      exact absurd hp (by simp)
    · rw [PolymarketBacktester.find_signal_point, if_neg hlt] at hp
      obtain ⟨h1, _, h3⟩ := PolymarketBacktester.fsp_loop_spec (pySorted tsRaw trades)
        ((pySorted tsRaw trades).length - 10) 10 0 none
      simp only [Option.some_inj] at hp
      subst hp
      refine ⟨h1, ?_⟩
      rcases h3 with heq | ⟨i, _, _, hi3, _, _⟩
      · rw [heq]; norm_num
      · rw [hi3]; exact PolymarketBacktester.signal_value_le _ i
  refine ⟨part1, part2, ?_⟩
  intro market trades hist now r hr
  obtain ⟨hprob, _⟩ := PolymarketBacktester.backtest_market_some_spec
    market trades hist now r hr
  by_cases hlt : trades.length < 10
  · have : PolymarketBacktester.backtest_market market trades hist now = none := by
      unfold PolymarketBacktester.backtest_market
      dsimp only
      rw [PolymarketBacktester.find_signal_point, if_pos hlt]
      split
      · rfl
      · split
        · rfl
        · rfl
    rw [this] at hr
    exact absurd hr (by simp)
  · have hsnd : ∃ m : ℚ, (PolymarketBacktester.find_signal_point trades).2 = some m := by
      rw [PolymarketBacktester.find_signal_point, if_neg hlt]
      exact ⟨_, rfl⟩
    obtain ⟨m, hm⟩ := hsnd
    rw [hprob, hm]
    simpa using part2 trades m hm

/-- C10 witness: the find-bound applied to the concrete eleven-trade input,
whose returned probability is 1861/4000. -/
theorem C10_witness :
    (PolymarketBacktester.find_signal_point elevenSpaced).2 = some (1861/4000) ∧
    0 ≤ (1861:ℚ)/4000 ∧ (1861:ℚ)/4000 ≤ (85/100) :=
  ⟨by rw [find_elevenSpaced_eq],
   (C10_probability_cap.2.1 elevenSpaced (1861/4000) (by rw [find_elevenSpaced_eq])).1,
   (C10_probability_cap.2.1 elevenSpaced (1861/4000) (by rw [find_elevenSpaced_eq])).2⟩

/-- C2 (amended).  When all five indicator scores are present, the detector's
aggregator applies exactly the spec's weights (concentration 25/100, velocity
15/100, skew 20/100, movement 15/100, whale 25/100) and caps at 1; the
backtester's aggregator reads the four scores with `.get(key, 0)` but never
applies the movement weight, so its result is independent of the movement
score. -/
theorem C2_weighted_aggregation (sc : Scores) (c v s m w : ℚ)
    (hc : sc.concentration = some c) (hv : sc.velocity = some v)
    (hs : sc.skew = some s) (hm : sc.movement = some m)
    (hw : sc.whale = some w) :
    PolymarketInsiderDetector.calculate_insider_probability sc =
      some (min ((c * (25/100) + v * (15/100) + s * (20/100) +
                  m * (15/100) + w * (25/100)) / 10) 1) ∧
    PolymarketBacktester.calculate_insider_probability sc =
      min ((c * (25/100) + v * (15/100) + s * (20/100) + w * (25/100)) / 10) 1 := by
  unfold PolymarketInsiderDetector.calculate_insider_probability
    PolymarketBacktester.calculate_insider_probability
  rw [hc, hv, hs, hm, hw]
  exact ⟨rfl, rfl⟩

/-- C2 counterexample: the claim's "0 is substituted and the aggregation
never aborts" fails for the detector's aggregator, which indexes the dict
directly and raises `KeyError` (modelled `none`) when the movement score is
absent; and the backtester's aggregator ignores the movement score entirely
(here movement 10 would contribute 10·(15/100)/10 = 3/20 under the spec's
weights, yet the result is 0). -/
theorem C2_counterexample :
    PolymarketInsiderDetector.calculate_insider_probability
      { concentration := some 10, velocity := some 10, skew := some 10,
        movement := none, whale := some 10 } = none ∧
    PolymarketBacktester.calculate_insider_probability
      { concentration := some 0, velocity := some 0, skew := some 0,
        movement := some 10, whale := some 0 } = 0 := by
  refine ⟨rfl, ?_⟩
  unfold PolymarketBacktester.calculate_insider_probability
  norm_num

/-- C2 witness: the amended aggregation at a concrete score mapping. -/
theorem C2_witness :
    PolymarketInsiderDetector.calculate_insider_probability
      { concentration := some 10, velocity := some 4, skew := some 10,
        movement := some 2, whale := some 1 } =
      some (min (((10:ℚ) * (25/100) + 4 * (15/100) + 10 * (20/100) +
                  2 * (15/100) + 1 * (25/100)) / 10) 1) ∧
    PolymarketBacktester.calculate_insider_probability
      { concentration := some 10, velocity := some 4, skew := some 10,
        movement := some 2, whale := some 1 } =
      min (((10:ℚ) * (25/100) + 4 * (15/100) + 10 * (20/100) +
            1 * (25/100)) / 10) 1 :=
  C2_weighted_aggregation _ 10 4 10 2 1 rfl rfl rfl rfl rfl

/-- C4 (amended).  `BacktestResult.predicted_correctly` is a plain boolean
that defaults to `False`: when the market is unresolved it reads `false`
(there is no "unknown" reading), and it is `true` only when the market is
resolved. -/
theorem C4_predicted_correctly_bool (market : PolymarketBacktester.Market)
    (trades : List Trade) (hist : PolymarketBacktester.MarketHistory)
    (now : ℚ) (r : PolymarketBacktester.BacktestResult)
    (h : PolymarketBacktester.backtest_market market trades hist now = some r) :
    (r.market_resolved = false → r.predicted_correctly = false) ∧
    (r.predicted_correctly = true → r.market_resolved = true) := by
  obtain ⟨-, hres, -, hpred, -⟩ :=
    PolymarketBacktester.backtest_market_some_spec market trades hist now r h
  constructor
  · intro hf
    rw [hres] at hf
    rw [hpred, hf]
    simp
  · intro ht
    rw [hpred] at ht
    simp only [Bool.and_eq_true] at ht
    rw [hres]
    exact ht.1.1

/-- C4 counterexample: a concrete backtest of an unresolved market (no
resolution metadata) in which `predicted_correctly` reads `false` — the
dataclass default — and not an "unknown" value; the field's type has no
unknown reading at all. -/
theorem C4_counterexample :
    PolymarketBacktester.backtest_market exMarket exBacktestTrades {} 0
      = some exBacktestResult ∧
    exBacktestResult.market_resolved = false ∧
    exBacktestResult.predicted_correctly = false :=
  ⟨backtest_exBacktestTrades_eq, rfl, rfl⟩

/-- C4 witness: the amended statement on the concrete backtest run. -/
theorem C4_witness :
    (exBacktestResult.market_resolved = false →
      exBacktestResult.predicted_correctly = false) ∧
    (exBacktestResult.predicted_correctly = true →
      exBacktestResult.market_resolved = true) :=
  C4_predicted_correctly_bool exMarket exBacktestTrades {} 0 exBacktestResult
    backtest_exBacktestTrades_eq

/-- C8 (confirmed).  Whenever a signal point is found but the pre-signal
price (nearest trade within 300 s of the signal timestamp, among the trades
before it) or the post-signal price (nearest trade within 300 s of
signal + 3600 s) resolves to `None`, `backtest_market` returns `None` and
never a partial result. -/
theorem C8_null_on_missing_price (market : PolymarketBacktester.Market)
    (trades : List Trade) (hist : PolymarketBacktester.MarketHistory)
    (now ts : ℚ) (ip : Option ℚ)
    (hfind : PolymarketBacktester.find_signal_point trades = (some ts, ip))
    (hmiss : PolymarketBacktester.get_market_price_at_timestamp
               (PolymarketBacktester.get_trades_before_timestamp trades ts) ts
               = none ∨
             PolymarketBacktester.get_market_price_at_timestamp trades
               (ts + 3600) = none) :
    PolymarketBacktester.backtest_market market trades hist now = none := by
  unfold PolymarketBacktester.backtest_market
  dsimp only
  split
  · rfl
  · split
    · rfl
    · rw [hfind]
      dsimp only
      rcases hmiss with hm | hm
      · rw [hm]
      · rw [hm]
        cases PolymarketBacktester.get_market_price_at_timestamp
            (PolymarketBacktester.get_trades_before_timestamp trades ts) ts <;> rfl

/-- C8 witness: `elevenSpaced` has a signal at timestamp 4000, but its
nearest pre-signal trade is 400 s away, so the backtest returns `None`. -/
theorem C8_witness :
    PolymarketBacktester.backtest_market exMarket elevenSpaced {} 0 = none := by
  have hb : PolymarketBacktester.get_trades_before_timestamp elevenSpaced 4000
      = eS10 := by
    rw [eS10_eq]
    norm_num [PolymarketBacktester.get_trades_before_timestamp, elevenSpaced,
      List.filter, tsRaw, sampleTrade]
  have hm : PolymarketBacktester.get_market_price_at_timestamp
      (PolymarketBacktester.get_trades_before_timestamp elevenSpaced 4000) 4000
      = none := by
    rw [hb]
    with_unfolding_all decide
  exact C8_null_on_missing_price exMarket elevenSpaced {} 0 4000
    (some (1861/4000)) find_elevenSpaced_eq (Or.inl hm)

/-- For a fold that skips bad-size trades, inserting one anywhere leaves the
fold unchanged. -/
theorem foldl_skips_bad {β : Type} (f : β → Trade → β) (t : Trade)
    (hbad : ∀ acc, sizeBad t = true → f acc t = acc)
    (hb : sizeBad t = true) (pre post : List Trade) (init : β) :
    (pre ++ t :: post).foldl f init = (pre ++ post).foldl f init := by
  rw [List.foldl_append, List.foldl_append, List.foldl_cons,
      hbad (pre.foldl f init) hb]

/-- C9 (amended).  A trade whose size does not parse is skipped by every
grouping loop (address volumes, outcome volumes, both whale groupings), so
inserting it anywhere leaves the concentration, outcome-skew and
whale-accumulation results unchanged; but a trade lacking both maker and
taker is NOT skipped — it is grouped under the literal address
`"unknown"`, contributing its full size there. -/
theorem C9_skip_and_unknown (pre post l : List Trade) (t u : Trade)
    (hbad : sizeBad t = true)
    (hum : u.maker = none) (hut : u.taker = none)
    (hug : sizeBad u = false) :
    addressVolumes (pre ++ t :: post) = addressVolumes (pre ++ post) ∧
    outcomeVolumes (pre ++ t :: post) = outcomeVolumes (pre ++ post) ∧
    PolymarketInsiderDetector.addressTradeGroups (pre ++ t :: post) =
      PolymarketInsiderDetector.addressTradeGroups (pre ++ post) ∧
    PolymarketBacktester.addressSizeGroups (pre ++ t :: post) =
      PolymarketBacktester.addressSizeGroups (pre ++ post) ∧
    PolymarketInsiderDetector.analyze_position_concentration (pre ++ t :: post)
      = PolymarketInsiderDetector.analyze_position_concentration (pre ++ post) ∧
    PolymarketInsiderDetector.analyze_outcome_skew (pre ++ t :: post)
      = PolymarketInsiderDetector.analyze_outcome_skew (pre ++ post) ∧
    PolymarketInsiderDetector.analyze_whale_accumulation (pre ++ t :: post)
      = PolymarketInsiderDetector.analyze_whale_accumulation (pre ++ post) ∧
    addressVolumes (l ++ [u]) =
      addToAssoc (addressVolumes l) "unknown" (sizeVal u) := by
  have hav : addressVolumes (pre ++ t :: post) = addressVolumes (pre ++ post) :=
    foldl_skips_bad _ t (fun acc hb => by rw [if_pos hb]) hbad pre post []
  have hov : outcomeVolumes (pre ++ t :: post) = outcomeVolumes (pre ++ post) :=
    foldl_skips_bad _ t (fun acc hb => by rw [if_pos hb]) hbad pre post []
  have hgr : PolymarketInsiderDetector.addressTradeGroups (pre ++ t :: post) =
      PolymarketInsiderDetector.addressTradeGroups (pre ++ post) :=
    foldl_skips_bad _ t (fun acc hb => by rw [if_pos hb]) hbad pre post []
  have hsg : PolymarketBacktester.addressSizeGroups (pre ++ t :: post) =
      PolymarketBacktester.addressSizeGroups (pre ++ post) :=
    foldl_skips_bad _ t (fun acc hb => by rw [if_pos hb]) hbad pre post []
  refine ⟨hav, hov, hgr, hsg, ?_, ?_, ?_, ?_⟩
  · by_cases hpp : pre ++ post = []
    · have h1 : addressVolumes (pre ++ t :: post) = [] := by
        rw [hav, hpp]; rfl
      unfold PolymarketInsiderDetector.analyze_position_concentration
      rw [if_neg (by simp : ¬ pre ++ t :: post = []), if_pos hpp]
      dsimp only
      rw [if_pos h1]
    · unfold PolymarketInsiderDetector.analyze_position_concentration
      rw [if_neg (by simp : ¬ pre ++ t :: post = []), if_neg hpp, hav]
  · by_cases hpp : pre ++ post = []
    · have h1 : outcomeVolumes (pre ++ t :: post) = [] := by
        rw [hov, hpp]; rfl
      unfold PolymarketInsiderDetector.analyze_outcome_skew
      rw [if_neg (by simp : ¬ pre ++ t :: post = []), if_pos hpp]
      dsimp only
      rw [if_pos h1]
    · unfold PolymarketInsiderDetector.analyze_outcome_skew
      rw [if_neg (by simp : ¬ pre ++ t :: post = []), if_neg hpp, hov]
  · by_cases hpp : pre ++ post = []
    · have h1 : PolymarketInsiderDetector.whale_data (pre ++ t :: post) = [] := by
        unfold PolymarketInsiderDetector.whale_data
        rw [hgr, hpp]; rfl
      unfold PolymarketInsiderDetector.analyze_whale_accumulation
      rw [if_neg (by simp : ¬ pre ++ t :: post = []), if_pos hpp]
      dsimp only
      rw [if_pos h1]
    · unfold PolymarketInsiderDetector.analyze_whale_accumulation
        PolymarketInsiderDetector.whale_data
      rw [if_neg (by simp : ¬ pre ++ t :: post = []), if_neg hpp, hgr]
  · unfold addressVolumes
    rw [List.foldl_append, List.foldl_cons, List.foldl_nil,
        if_neg (by rw [hug]; simp)]
    unfold addrOf
    rw [hum, hut]
    rfl

/-- C9 witness: inserting the unparsable-size trade after the one addressed
trade changes no grouping, while the trade with no maker and no taker is
grouped under `"unknown"`. -/
theorem C9_witness :
    addressVolumes (oneAddressTrade ++ badSizeTrade :: []) =
      addressVolumes (oneAddressTrade ++ []) ∧
    addressVolumes (oneAddressTrade ++ [noAddressTrade]) =
      addToAssoc (addressVolumes oneAddressTrade) "unknown"
        (sizeVal noAddressTrade) := by
  obtain ⟨h1, -, -, -, -, -, -, h8⟩ :=
    C9_skip_and_unknown oneAddressTrade [] oneAddressTrade badSizeTrade
      noAddressTrade rfl rfl rfl rfl
  exact ⟨h1, h8⟩

/-- C9 counterexample: the trade with neither maker nor taker is not
skipped — it is grouped under `"unknown"` with its full size 100, and its
presence halves the detector's concentration score (5 instead of 10). -/
theorem C9_counterexample :
    addressVolumes withNoAddressTrades = [("a", 100), ("unknown", 100)] ∧
    (PolymarketInsiderDetector.analyze_position_concentration
      withNoAddressTrades).1 = 5 ∧
    (PolymarketInsiderDetector.analyze_position_concentration
      oneAddressTrade).1 = 10 := by
  with_unfolding_all decide

/-- C5 (amended).  With fewer than 2 trades the velocity indicator returns
`(0, {})`; with at least 2 trades whose first and last sorted timestamps
differ, the score is the claim's formula
`min(count / max(timeSpanHours, 0.1) / 10, 10)`; but when the first and last
timestamps coincide the code sets `time_diff_hours = 1` (not
`max(0, 0.1) = 0.1` as the claim's formula implies), giving
`min(count/10, 10)`.  The detector's variant agrees with the backtester's
score whenever no trade size is unparseable. -/
theorem C5_velocity_formula (trades : List Trade) :
    (trades.length < 2 →
      PolymarketBacktester.analyze_volume_velocity trades = (0, none)) ∧
    (2 ≤ trades.length →
      tsRaw ((pySorted tsRaw trades).getLastD default) ≠
        tsRaw ((pySorted tsRaw trades).headD default) →
      (PolymarketBacktester.analyze_volume_velocity trades).1 =
        specVelocityScore trades) ∧
    (2 ≤ trades.length →
      tsRaw ((pySorted tsRaw trades).getLastD default) =
        tsRaw ((pySorted tsRaw trades).headD default) →
      (PolymarketBacktester.analyze_volume_velocity trades).1 =
        min ((trades.length : ℚ) / 10) 10) ∧
    ((pySorted tsRaw trades).any sizeBad = false →
      (PolymarketInsiderDetector.analyze_volume_velocity trades).1 =
        (PolymarketBacktester.analyze_volume_velocity trades).1) := by
  have hlen : (pySorted tsRaw trades).length = trades.length :=
    pySorted_length tsRaw trades
  refine ⟨?_, ?_, ?_, ?_⟩
  · intro h2
    unfold PolymarketBacktester.analyze_volume_velocity
    by_cases hne : trades = []
    · rw [if_pos hne]
    · rw [if_neg hne]
      dsimp only
      rw [if_pos (by rw [hlen]; exact h2)]
  · intro h2 hdiff
    have hne : trades ≠ [] := by
      intro hnil; rw [hnil] at h2; simp at h2
    unfold PolymarketBacktester.analyze_volume_velocity
    rw [if_neg hne]
    dsimp only
    rw [if_neg (by rw [hlen]; omega), if_pos hdiff]
    unfold specVelocityScore
    rw [hlen]
  · intro h2 heq
    have hne : trades ≠ [] := by
      intro hnil; rw [hnil] at h2; simp at h2
    unfold PolymarketBacktester.analyze_volume_velocity
    rw [if_neg hne]
    dsimp only
    rw [if_neg (by rw [hlen]; omega), if_neg (by rw [heq]; simp), hlen]
    rw [max_eq_left (by norm_num : (1:ℚ)/10 ≤ 1), div_one]
  · intro hnb
    unfold PolymarketInsiderDetector.analyze_volume_velocity
      PolymarketBacktester.analyze_volume_velocity
    by_cases hne : trades = []
    · rw [if_pos hne, if_pos hne]
    · rw [if_neg hne, if_neg hne]
      dsimp only
      by_cases hlt : (pySorted tsRaw trades).length < 2
      · rw [if_pos hlt, if_pos hlt]
      · rw [if_neg hlt, if_neg hlt]
        have hfilt : ((pySorted tsRaw trades).filter
            (fun t => tsRaw ((pySorted tsRaw trades).getLastD default) - tsRaw t
              < 86400)).any sizeBad = false := by
          rw [List.any_eq_false] at hnb ⊢
          intro t ht
          exact hnb t (List.mem_of_mem_filter ht)
        rw [if_neg (by rw [hfilt]; simp)]

/-- C5 counterexample: two trades sharing one timestamp.  The claim's
formula gives `min(2 / max(0, 0.1) / 10, 10) = 2`, but both implementations
take the `else  1` branch for a zero time span and return `1/5`. -/
theorem C5_counterexample :
    (PolymarketBacktester.analyze_volume_velocity sameTimeTrades).1 = 1/5 ∧
    (PolymarketInsiderDetector.analyze_volume_velocity sameTimeTrades).1 = 1/5 ∧
    specVelocityScore sameTimeTrades = 2 := by
  with_unfolding_all decide

/-- C5 witness: on two trades an hour apart the code's score agrees with the
claim's formula. -/
theorem C5_witness :
    2 ≤ twoPlainTrades.length ∧
    (PolymarketBacktester.analyze_volume_velocity twoPlainTrades).1 =
      specVelocityScore twoPlainTrades :=
  ⟨by decide, (C5_velocity_formula twoPlainTrades).2.1 (by decide)
    (by with_unfolding_all decide)⟩

/-- C6 (amended).  For a trade list with outcome volumes present and a
positive volume total, the detector's outcome-skew score is 0 exactly when
the LARGEST outcome's volume share equals 1/2 — which also happens with
three or more outcomes, not only for a 50/50 two-outcome split — and the
score is the maximal 10 whenever all volume sits on one outcome. -/
theorem C6_skew_characterization (trades : List Trade)
    (hne : outcomeVolumes trades ≠ [])
    (hpos : 0 < ((outcomeVolumes trades).map (fun p => p.2)).sum) :
    ((PolymarketInsiderDetector.analyze_outcome_skew trades).1 = 0 ↔
      ((pySortedDesc (fun p => p.2) (outcomeVolumes trades)).headD default).2 /
        ((outcomeVolumes trades).map (fun p => p.2)).sum = 1/2) ∧
    (((pySortedDesc (fun p => p.2) (outcomeVolumes trades)).headD default).2 =
        ((outcomeVolumes trades).map (fun p => p.2)).sum →
      (PolymarketInsiderDetector.analyze_outcome_skew trades).1 = 10) := by
  have htne : trades ≠ [] := by
    intro hnil
    exact hne (by rw [hnil]; rfl)
  unfold PolymarketInsiderDetector.analyze_outcome_skew
  rw [if_neg htne]
  dsimp only
  rw [if_neg hne, if_neg (ne_of_gt hpos)]
  constructor
  · constructor
    · intro h0
      rcases min_eq_iff.mp h0 with ⟨ha, -⟩ | ⟨hb, -⟩
      · have habs : |((pySortedDesc (fun p => p.2) (outcomeVolumes trades)).headD
            default).2 / ((outcomeVolumes trades).map (fun p => p.2)).sum - 1/2|
            = 0 := by
          by_contra hc
          have : 0 < |((pySortedDesc (fun p => p.2) (outcomeVolumes trades)).headD
              default).2 / ((outcomeVolumes trades).map (fun p => p.2)).sum - 1/2| :=
            lt_of_le_of_ne (abs_nonneg _) (Ne.symm hc)
          nlinarith
        have := abs_eq_zero.mp habs
        linarith
      · norm_num at hb
    · intro hhalf
      rw [hhalf]
      norm_num
  · intro htop
    rw [htop, div_self (ne_of_gt hpos)]
    rw [show |(1:ℚ) - 1/2| = 1/2 by rw [abs_of_nonneg] <;> norm_num]
    norm_num

/-- C6 counterexample: three outcomes with volume shares 1/2, 3/10 and 1/5.
The largest share is 1/2, so both skew scores are 0 even though the volume
is not split 50/50 between exactly two outcomes. -/
theorem C6_counterexample :
    (PolymarketInsiderDetector.analyze_outcome_skew threeOutcomeTrades).1 = 0 ∧
    (PolymarketBacktester.analyze_outcome_skew threeOutcomeTrades).1 = 0 ∧
    outcomeVolumes threeOutcomeTrades = [("A", 5), ("B", 3), ("C", 2)] := by
  with_unfolding_all decide

/-- C6 witness: the characterization applied to the two-outcome 50/50 split,
whose score is 0. -/
theorem C6_witness :
    (PolymarketInsiderDetector.analyze_outcome_skew evenSplitTrades).1 = 0 :=
  (C6_skew_characterization evenSplitTrades
    (by with_unfolding_all decide) (by with_unfolding_all decide)).1.mpr
    (by with_unfolding_all decide)

/-- C7 (confirmed).  For normalized two-sided prices `p` and `1 - p` with
`p ∈ [0, 1]`, the Kalshi scanner's suspicious score is
`|p - 1/2| * 2 * 10`, and the detector's outcome-skew indicator on a
two-outcome trade set with volume shares `p` and `1 - p` produces the same
value (the claim's `min(..., 10)` clip never binds for normalized prices). -/
theorem C7_skew_refinement (p : ℚ) (h0 : 0 ≤ p) (h1 : p ≤ 1) :
    (KalshiInsiderDetector.analyze_market
      { yes_price := some p, no_price := some (1 - p) }).suspicious_score
      = |p - 1/2| * 2 * 10 ∧
    (PolymarketInsiderDetector.analyze_outcome_skew
      [sampleTrade 0 "a" p "Yes" (1/2),
       sampleTrade 1 "b" (1 - p) "No" (1/2)]).1 = |p - 1/2| * 2 * 10 := by
  have habs : |p - 1/2| ≤ 1/2 := by
    rw [abs_le]; constructor <;> linarith
  constructor
  · unfold KalshiInsiderDetector.analyze_market KalshiInsiderDetector.calculate_skew
    dsimp only
    simp only [Option.getD_some]
    rw [show p + (1 - p) = 1 by ring]
    rw [if_neg (one_ne_zero), div_one]
  · have hov : outcomeVolumes
        [sampleTrade 0 "a" p "Yes" (1/2), sampleTrade 1 "b" (1 - p) "No" (1/2)]
        = [("Yes", p), ("No", 1 - p)] := by
      norm_num [outcomeVolumes, addToAssoc, sizeBad, sizeVal, sampleTrade,
        List.foldl]
      decide
    unfold PolymarketInsiderDetector.analyze_outcome_skew
    rw [if_neg (by simp)]
    dsimp only
    rw [hov]
    rw [if_neg (by simp)]
    simp only [List.map_cons, List.map_nil, List.sum_cons, List.sum_nil, add_zero]
    rw [show p + (1 - p) = 1 by ring]
    rw [if_neg (one_ne_zero)]
    simp only [pySortedDesc, pySorted, insertAsc]
    by_cases hc : -p ≤ -(1 - p)
    · rw [if_pos hc]
      simp only [List.headD]
      rw [div_one]
      rw [min_eq_left (by nlinarith)]
      ring
    · rw [if_neg hc]
      simp only [List.headD]
      rw [div_one]
      rw [show |1 - p - 1/2| = |p - 1/2| by rw [show (1:ℚ) - p - 1/2 = -(p - 1/2) by ring, abs_neg]]
      rw [min_eq_left (by nlinarith)]
      ring

/-- C7 witness: the refinement at the strongly skewed price point 99/100,
where both sides equal 49/5. -/
theorem C7_witness :
    (KalshiInsiderDetector.analyze_market
      { yes_price := some (99/100), no_price := some (1 - 99/100) }).suspicious_score
      = |(99:ℚ)/100 - 1/2| * 2 * 10 ∧
    (PolymarketInsiderDetector.analyze_outcome_skew
      [sampleTrade 0 "a" (99/100) "Yes" (1/2),
       sampleTrade 1 "b" (1 - 99/100) "No" (1/2)]).1
      = |(99:ℚ)/100 - 1/2| * 2 * 10 :=
  C7_skew_refinement (99/100) (by norm_num) (by norm_num)

/-- Summing `p.2 / T` over an association list is the value-sum over `T`. -/
theorem sum_map_snd_div (l : List (String × ℚ)) (T : ℚ) :
    (l.map (fun p => p.2 / T)).sum = ((l.map (fun p => p.2)).sum) / T := by
  induction l with
  | nil => simp
  | cons x xs ih => simp [ih, add_div]

/-- Every stored size in the detector's per-address trade groups is
nonnegative when all parsed trade sizes are. -/
theorem tradeGroups_sizes_nonneg (trades : List Trade)
    (hsz : ∀ t ∈ trades, ∀ q, t.size = RawNum.num q → 0 ≤ q) :
    ∀ g ∈ PolymarketInsiderDetector.addressTradeGroups trades,
      ∀ e ∈ g.2, 0 ≤ e.1 := by
  have main : ∀ (ts : List Trade) (init : List (String × List (ℚ × ℚ × ℚ))),
      (∀ g ∈ init, ∀ e ∈ g.2, 0 ≤ e.1) →
      (∀ t ∈ ts, ∀ q, t.size = RawNum.num q → 0 ≤ q) →
      ∀ g ∈ ts.foldl (fun acc t => if sizeBad t then acc
          else appendToAssoc acc (addrOf t) (sizeVal t, tsRaw t, priceRaw t)) init,
        ∀ e ∈ g.2, 0 ≤ e.1 := by
    intro ts
    induction ts with
    | nil => intro init hinit _ g hg; exact hinit g hg
    | cons t rest ih =>
        intro init hinit hsz' g hg
        simp only [List.foldl_cons] at hg
        by_cases hb : sizeBad t
        · rw [if_pos hb] at hg
          exact ih init hinit (fun u hu => hsz' u (List.mem_cons_of_mem t hu)) g hg
        · rw [if_neg hb] at hg
          refine ih _ ?_ (fun u hu => hsz' u (List.mem_cons_of_mem t hu)) g hg
          exact appendToAssoc_forall init (addrOf t) _ hinit
            (sizeVal_nonneg t (hsz' t (List.mem_cons_self t rest)))
  exact main trades [] (by simp) hsz

/-- Every whale entry's accumulation speed is nonnegative when all parsed
trade sizes are. -/
theorem whale_data_speed_nonneg (trades : List Trade)
    (hsz : ∀ t ∈ trades, ∀ q, t.size = RawNum.num q → 0 ≤ q) :
    ∀ w ∈ PolymarketInsiderDetector.whale_data trades,
      0 ≤ w.accumulation_speed := by
  intro w hw
  unfold PolymarketInsiderDetector.whale_data at hw
  rcases List.mem_filterMap.mp hw with ⟨g, hg, heq⟩
  dsimp only at heq
  by_cases h2 : 2 ≤ g.2.length
  · rw [if_pos h2, Option.some.injEq] at heq
    subst heq
    dsimp only
    refine div_nonneg ?_ (le_trans (by norm_num) (le_max_right _ _))
    refine List.sum_nonneg ?_
    intro x hx
    rcases List.mem_map.mp hx with ⟨e, he, rfl⟩
    exact tradeGroups_sizes_nonneg trades hsz g hg e he
  · rw [if_neg h2] at heq
    cases heq

/-- Detector concentration: nonnegative always, and at most 10 when all
parsed sizes are nonnegative and the grouped volume total is nonzero. -/
theorem d_conc_score_bounds (trades : List Trade)
    (hsz : ∀ t ∈ trades, ∀ q, t.size = RawNum.num q → 0 ≤ q) :
    0 ≤ (PolymarketInsiderDetector.analyze_position_concentration trades).1 ∧
    (((addressVolumes trades).map (fun p => p.2)).sum ≠ 0 →
      (PolymarketInsiderDetector.analyze_position_concentration trades).1 ≤ 10) := by
  unfold PolymarketInsiderDetector.analyze_position_concentration
  split
  · norm_num
  · dsimp only
    split
    · norm_num
    · dsimp only
      constructor
      · have := sum_sq_nonneg ((addressVolumes trades).map
          (fun p => p.2 / ((addressVolumes trades).map (fun p => p.2)).sum))
        nlinarith
      · intro htot
        have hvals := addressVolumes_nonneg trades hsz
        have htnn : 0 ≤ ((addressVolumes trades).map (fun p => p.2)).sum := by
          refine List.sum_nonneg ?_
          intro x hx
          rcases List.mem_map.mp hx with ⟨q, hq, rfl⟩
          exact hvals q hq
        have hsh : ∀ x ∈ (addressVolumes trades).map
            (fun p => p.2 / ((addressVolumes trades).map (fun p => p.2)).sum),
            0 ≤ x := by
          intro x hx
          rcases List.mem_map.mp hx with ⟨q, hq, rfl⟩
          exact div_nonneg (hvals q hq) htnn
        have hherf := sum_sq_le_sq_sum _ hsh
        have hmm : ((addressVolumes trades).map
            (fun p => p.2 / ((addressVolumes trades).map (fun p => p.2)).sum)).sum
            = 1 := by
          rw [sum_map_snd_div]
          exact div_self htot
        rw [hmm, one_pow] at hherf
        linarith [hherf]

/-- Detector velocity is always within [0, 10]. -/
theorem d_vel_score_bounds (trades : List Trade) :
    0 ≤ (PolymarketInsiderDetector.analyze_volume_velocity trades).1 ∧
    (PolymarketInsiderDetector.analyze_volume_velocity trades).1 ≤ 10 := by
  unfold PolymarketInsiderDetector.analyze_volume_velocity
  split
  · norm_num
  · dsimp only
    split
    · norm_num
    · split
      · norm_num
      · refine ⟨le_min ?_ (by norm_num), min_le_right _ _⟩
        have h1 : (0:ℚ) ≤ (pySorted tsRaw trades).length := by positivity
        have h2 : (0:ℚ) ≤ max (if tsRaw ((pySorted tsRaw trades).getLastD default) ≠
            tsRaw ((pySorted tsRaw trades).headD default) then
            (tsRaw ((pySorted tsRaw trades).getLastD default) -
             tsRaw ((pySorted tsRaw trades).headD default)) / 3600 else 1) (1/10) :=
          le_trans (by norm_num) (le_max_right _ _)
        positivity

/-- Detector outcome skew is always within [0, 10]. -/
theorem d_skew_score_bounds (trades : List Trade) :
    0 ≤ (PolymarketInsiderDetector.analyze_outcome_skew trades).1 ∧
    (PolymarketInsiderDetector.analyze_outcome_skew trades).1 ≤ 10 := by
  unfold PolymarketInsiderDetector.analyze_outcome_skew
  split
  · norm_num
  · dsimp only
    split
    · norm_num
    · split
      · norm_num
      · exact ⟨le_min (mul_nonneg (abs_nonneg _) (by norm_num)) (by norm_num),
               min_le_right _ _⟩

/-- Detector price movement is always within [0, 10] (all relative changes
are nonnegative and the sample deviation is a square root). -/
theorem d_movement_score_bounds (trades : List Trade) :
    (0:ℝ) ≤ (PolymarketInsiderDetector.analyze_price_movement trades).1 ∧
    (PolymarketInsiderDetector.analyze_price_movement trades).1 ≤ 10 := by
  unfold PolymarketInsiderDetector.analyze_price_movement
  split
  · norm_num
  · dsimp only
    split
    · norm_num
    · split
      · norm_num
      · split
        · norm_num
        · split
          · norm_num
          · refine ⟨le_min ?_ (by norm_num), min_le_right _ _⟩
            refine mul_nonneg (add_nonneg ?_ ?_) (by norm_num)
            · have hch : ∀ c ∈ PolymarketInsiderDetector.relChanges
                  (((pySorted tsRaw trades).map priceRaw).filter
                    (fun p => 0 < p)), 0 ≤ c := by
                refine relChanges_nonneg _ ?_
                intro q hq
                have := List.of_mem_filter hq
                exact of_decide_eq_true this
              have hsum := List.sum_nonneg hch
              have hq : (0:ℚ) ≤ (PolymarketInsiderDetector.relChanges
                  (((pySorted tsRaw trades).map priceRaw).filter
                    (fun p => 0 < p))).sum /
                  ((PolymarketInsiderDetector.relChanges
                    (((pySorted tsRaw trades).map priceRaw).filter
                      (fun p => 0 < p))).length : ℚ) :=
                div_nonneg hsum (Nat.cast_nonneg _)
              exact_mod_cast hq
            · split
              · exact Real.sqrt_nonneg _
              · exact le_refl 0

/-- Detector whale accumulation: at most 10 always, and nonnegative when all
parsed sizes are nonnegative. -/
theorem d_whale_score_bounds (trades : List Trade)
    (hsz : ∀ t ∈ trades, ∀ q, t.size = RawNum.num q → 0 ≤ q) :
    0 ≤ (PolymarketInsiderDetector.analyze_whale_accumulation trades).1 ∧
    (PolymarketInsiderDetector.analyze_whale_accumulation trades).1 ≤ 10 := by
  unfold PolymarketInsiderDetector.analyze_whale_accumulation
  split
  · norm_num
  · dsimp only
    split
    · norm_num
    · rename_i h1 hne
      refine ⟨le_min ?_ (by norm_num), min_le_right _ _⟩
      have hne' : pySortedDesc (fun w => w.total_position)
          (PolymarketInsiderDetector.whale_data trades) ≠ [] := by
        intro hh
        apply hne
        have hl := pySorted_length (fun w => -(w.total_position))
          (PolymarketInsiderDetector.whale_data trades)
        rw [show pySortedDesc (fun w => w.total_position)
            (PolymarketInsiderDetector.whale_data trades) =
            pySorted (fun w => -(w.total_position))
            (PolymarketInsiderDetector.whale_data trades) from rfl] at hh
        rw [hh] at hl
        exact List.length_eq_zero.mp hl.symm
      have hmem := headD_mem _ hne'
      have hmem2 : (pySortedDesc (fun w => w.total_position)
          (PolymarketInsiderDetector.whale_data trades)).headD default ∈
          pySorted (fun w => -(w.total_position))
          (PolymarketInsiderDetector.whale_data trades) := hmem
      have hmem' : (pySortedDesc (fun w => w.total_position)
          (PolymarketInsiderDetector.whale_data trades)).headD default ∈
          PolymarketInsiderDetector.whale_data trades :=
        (mem_pySorted (fun w => -(w.total_position)) _ _).mp hmem2
      have hs := whale_data_speed_nonneg trades hsz _ hmem'
      exact div_nonneg hs (by norm_num)

/-- C3 (amended).  With all parsed trade sizes nonnegative, the detector's
velocity, outcome-skew and price-movement indicators always return scores in
[0, 10]; whale accumulation does too; concentration is nonnegative but its
score `herfindahl * 10` is only bounded by 10 when the grouped volume total
is nonzero — the detector file has no clamp at the return boundary, so with
mixed-sign sizes the score can exceed 10 (see the counterexample). -/
theorem C3_indicator_bounds (trades : List Trade)
    (hsz : ∀ t ∈ trades, ∀ q, t.size = RawNum.num q → 0 ≤ q) :
    (0 ≤ (PolymarketInsiderDetector.analyze_position_concentration trades).1 ∧
     (((addressVolumes trades).map (fun p => p.2)).sum ≠ 0 →
       (PolymarketInsiderDetector.analyze_position_concentration trades).1 ≤ 10)) ∧
    (0 ≤ (PolymarketInsiderDetector.analyze_volume_velocity trades).1 ∧
     (PolymarketInsiderDetector.analyze_volume_velocity trades).1 ≤ 10) ∧
    (0 ≤ (PolymarketInsiderDetector.analyze_outcome_skew trades).1 ∧
     (PolymarketInsiderDetector.analyze_outcome_skew trades).1 ≤ 10) ∧
    ((0:ℝ) ≤ (PolymarketInsiderDetector.analyze_price_movement trades).1 ∧
     (PolymarketInsiderDetector.analyze_price_movement trades).1 ≤ 10) ∧
    (0 ≤ (PolymarketInsiderDetector.analyze_whale_accumulation trades).1 ∧
     (PolymarketInsiderDetector.analyze_whale_accumulation trades).1 ≤ 10) :=
  ⟨d_conc_score_bounds trades hsz, d_vel_score_bounds trades,
   d_skew_score_bounds trades, d_movement_score_bounds trades,
   d_whale_score_bounds trades hsz⟩

/-- C3 counterexample: two trades with sizes 10 and -9 give volume shares 10
and -9 of the total 1, a Herfindahl index of 181 and a detector
concentration score of 1810 — far outside [0, 10], because the detector file
returns `herfindahl * 10` with no clamp at the return boundary. -/
theorem C3_counterexample :
    (PolymarketInsiderDetector.analyze_position_concentration
      mixedSignTrades).1 = 1810 ∧
    ¬ (PolymarketInsiderDetector.analyze_position_concentration
      mixedSignTrades).1 ≤ 10 := by
  have hav : addressVolumes mixedSignTrades = [("a", 10), ("b", -9)] := by
    norm_num [mixedSignTrades, addressVolumes, addToAssoc, sizeBad, sizeVal,
      addrOf, List.foldl]
    decide
  have hsc : (PolymarketInsiderDetector.analyze_position_concentration
      mixedSignTrades).1 = 1810 := by
    unfold PolymarketInsiderDetector.analyze_position_concentration
    rw [if_neg (show ¬ mixedSignTrades = [] by simp [mixedSignTrades])]
    dsimp only
    rw [hav, if_neg (List.cons_ne_nil _ _)]
    norm_num
  exact ⟨hsc, by rw [hsc]; norm_num⟩

/-- C3 witness: the bounds instantiated on two plain nonnegative-size
trades. -/
theorem C3_witness :
    (0 ≤ (PolymarketInsiderDetector.analyze_position_concentration
        twoPlainTrades).1 ∧
     (((addressVolumes twoPlainTrades).map (fun p => p.2)).sum ≠ 0 →
       (PolymarketInsiderDetector.analyze_position_concentration
         twoPlainTrades).1 ≤ 10)) ∧
    (0 ≤ (PolymarketInsiderDetector.analyze_volume_velocity twoPlainTrades).1 ∧
     (PolymarketInsiderDetector.analyze_volume_velocity twoPlainTrades).1 ≤ 10) ∧
    (0 ≤ (PolymarketInsiderDetector.analyze_outcome_skew twoPlainTrades).1 ∧
     (PolymarketInsiderDetector.analyze_outcome_skew twoPlainTrades).1 ≤ 10) ∧
    ((0:ℝ) ≤ (PolymarketInsiderDetector.analyze_price_movement twoPlainTrades).1 ∧
     (PolymarketInsiderDetector.analyze_price_movement twoPlainTrades).1 ≤ 10) ∧
    (0 ≤ (PolymarketInsiderDetector.analyze_whale_accumulation twoPlainTrades).1 ∧
     (PolymarketInsiderDetector.analyze_whale_accumulation twoPlainTrades).1 ≤ 10) :=
  C3_indicator_bounds twoPlainTrades (by
    intro t ht q hq
    simp only [twoPlainTrades, List.mem_cons, List.not_mem_nil, or_false] at ht
    rcases ht with rfl | rfl
    · simp only [sampleTrade] at hq
      injection hq with h
      rw [← h]
      norm_num
    · simp only [sampleTrade] at hq
      injection hq with h
      rw [← h]
      norm_num)
